import Mathlib

/-!
Verification of the content-analysis and session-grounding pipeline of the
GeminiAssistent repository, as a shallow embedding in Lean 4.

The embedded code comes from:
* `src/system-instruction-builder.ts` — the pure instruction compiler;
* `src/analysis-service.ts` — content fetchers, the file-classification
  worker, GitHub URL parsing/fetching, and the summary-generation checks;
* `src/gdm-live-audio.ts` — the UI component's state machine
  (`handleAnalysisSubmit`, `removeAnalysis`, `reset`, `initSession`,
  the live-session `onclose` callback and the recording pipeline);
* `src/content-analysis-manager.ts` — the accumulator append.

Effectful TypeScript is embedded as explicit state passing: external I/O
results (HTTP responses, AI completion text, the live-connect outcome) are
parameters of the Lean functions, and thrown JS exceptions are `Except`
errors.  Machine-level details that no claim touches (timestamps inside
timeline events, base64 decoding of the README payload, audio sample data)
are abstracted as opaque `String` parameters carrying the decoded value.
-/

namespace GeminiAssistent

/-- Persona axis of an analysis (`'assistant' | 'analyst'` in `types.ts`). -/
inductive Persona where
  | assistant
  | analyst
deriving DecidableEq, Repr

/-- Source-type axis of an analysis
(`'youtube' | 'github' | 'spreadsheet' | 'file' | 'search' | 'url' | 'video'`). -/
inductive AType where
  | youtube
  | github
  | spreadsheet
  | file
  | search
  | url
  | video
deriving DecidableEq, Repr

/-- The string the TS template interpolation `${analysis.type}` produces. -/
def AType.toStr : AType → String
  | .youtube => "youtube"
  | .github => "github"
  | .spreadsheet => "spreadsheet"
  | .file => "file"
  | .search => "search"
  | .url => "url"
  | .video => "video"

/-- An accumulated analysis (`Analysis` in `types.ts`). -/
structure Analysis where
  id : String
  title : String
  source : String
  summary : String
  type : AType
  persona : Persona
deriving DecidableEq, Repr

/-- Result of one `AnalysisService.analyze` run (`AnalysisResult` in `types.ts`):
an `Analysis` minus the `id` the caller assigns. -/
structure AnalysisResult where
  summary : String
  title : String
  source : String
  persona : Persona
  type : AType
deriving DecidableEq, Repr

/-! ## `src/system-instruction-builder.ts` -/

/-- The fixed default instruction returned by
`generateCompositeSystemInstruction` for an empty list (line 63), and also the
default used by `initSession` when no instruction is passed. -/
def defaultInstruction : String :=
  "Você é um assistente de voz prestativo que fala português do Brasil. Você não tem a capacidade de pesquisar na internet."

/-- Text of the analyst template before the opening knowledge delimiter. -/
def analystHeader (title : String) : String :=
  "Você é um assistente de voz e analista de dados especialista. Seu foco é o conteúdo da seguinte planilha/documento: \""
    ++ title
    ++ "\".\nVocê já realizou uma análise preliminar e tem o seguinte resumo como seu conhecimento base.\n"

/-- Text of the analyst template after the closing knowledge delimiter. -/
def analystRoles : String :=
  "\nSeu papel é:\n1. Responder perguntas sobre os dados usando o conhecimento acima. Seja preciso e quantitativo sempre que possível.\n2. Manter um tom de analista: claro, objetivo e focado nos dados. Fale em português do Brasil.\n3. Se a pergunta for sobre algo não contido nos dados, indique que a informação não está na planilha. Você não pode pesquisar informações externas.\n4. Não invente dados; atenha-se estritamente ao conhecimento fornecido."

/-- `getSingleSystemInstruction`, `persona === 'analyst'` branch. -/
def analystInstruction (title summary : String) : String :=
  analystHeader title
    ++ "--- INÍCIO DO CONHECIMENTO ---\n"
    ++ summary
    ++ "\n--- FIM DO CONHECIMENTO ---"
    ++ analystRoles

/-- Text of the GitHub template before the opening knowledge delimiter. -/
def githubHeader (title : String) : String :=
  "Você é um assistente de voz e especialista no repositório do GitHub: \""
    ++ title
    ++ "\".\nVocê já analisou o README e a estrutura de arquivos do projeto. Seu conhecimento base é o seguinte resumo:\n"

/-- Text of the GitHub template after the closing knowledge delimiter. -/
def githubRoles : String :=
  "\nSeu papel é:\n1. Responder perguntas sobre o propósito, tecnologia, estrutura e como usar o repositório.\n2. Manter um tom técnico e prestativo, como um engenheiro de software sênior, falando em português do Brasil.\n3. Se a informação não estiver no seu conhecimento, indique que a resposta não pode ser encontrada no resumo do repositório. Você não pode pesquisar na web.\n4. Não invente informações; atenha-se estritamente ao seu conhecimento do repositório."

/-- `getSingleSystemInstruction`, `type === 'github'` branch. -/
def githubInstruction (title summary : String) : String :=
  githubHeader title
    ++ "--- INÍCIO DO CONHECIMENTO ---\n"
    ++ summary
    ++ "\n--- FIM DO CONHECIMENTO ---"
    ++ githubRoles

/-- Text of the video template before the opening knowledge delimiter. -/
def videoHeader (title : String) : String :=
  "Você é um assistente de voz inteligente especializado no vídeo: \""
    ++ title
    ++ "\".\nVocê já assistiu ao vídeo e analisou tanto o áudio quanto os elementos visuais. Seu conhecimento base é o seguinte resumo:\n"

/-- Text of the video template after the closing knowledge delimiter. -/
def videoRoles : String :=
  "\nSeu papel é:\n1. Responder a perguntas sobre o vídeo. Isso inclui o conteúdo falado (tópicos, ideias) E detalhes visuais (cores, pessoas, objetos, texto na tela, ações).\n2. Manter um tom conversacional e natural em português do Brasil.\n3. Se a informação não estiver no seu conhecimento (o resumo do vídeo), indique que a resposta não se encontra no vídeo. Você não pode pesquisar na web.\n4. Não invente informações; atenha-se estritamente ao seu conhecimento do vídeo."

/-- `getSingleSystemInstruction`, `type === 'youtube' || type === 'video'` branch. -/
def videoInstruction (title summary : String) : String :=
  videoHeader title
    ++ "--- INÍCIO DO CONHECIMENTO ---\n"
    ++ summary
    ++ "\n--- FIM DO CONHECIMENTO ---"
    ++ videoRoles

/-- Text of the generic template before the opening knowledge delimiter. -/
def genericHeader (title : String) : String :=
  "Você é um assistente de voz inteligente especializado no seguinte conteúdo: \""
    ++ title
    ++ "\".\nVocê já analisou o conteúdo e tem o seguinte resumo detalhado como seu conhecimento.\n"

/-- Text of the generic template after the closing knowledge delimiter. -/
def genericRoles : String :=
  "\nSeu papel é:\n1. Responder perguntas sobre o conteúdo usando o conhecimento acima.\n2. Manter um tom conversacional e natural em português do Brasil.\n3. Se a informação não estiver no seu conhecimento, indique que a resposta não se encontra no conteúdo original. Você não pode pesquisar na web.\n4. Não invente informações; atenha-se ao conhecimento fornecido."

/-- `getSingleSystemInstruction`, final `else` branch. -/
def genericInstruction (title summary : String) : String :=
  genericHeader title
    ++ "--- INÍCIO DO CONHECIMENTO ---\n"
    ++ summary
    ++ "\n--- FIM DO CONHECIMENTO ---"
    ++ genericRoles

/-- `getSingleSystemInstruction` (system-instruction-builder.ts lines 8-57):
persona is checked first, then `github`, then `youtube`/`video`, else generic. -/
def getSingleSystemInstruction (a : Analysis) : String :=
  if a.persona = .analyst then analystInstruction a.title a.summary
  else if a.type = .github then githubInstruction a.title a.summary
  else if a.type = .youtube ∨ a.type = .video then videoInstruction a.title a.summary
  else genericInstruction a.title a.summary

/-- Preamble of the composite (multi-source) instruction (line 70). -/
def multiHeader : String :=
  "Você é um assistente de voz especialista com conhecimento de múltiplas fontes. Abaixo estão os resumos dos conteúdos que você analisou. Responda às perguntas com base estritamente nessas informações. Ao responder, se possível, mencione a fonte (título) da qual você está extraindo a informação.\n\n"

/-- Trailer of the composite instruction (line 78). -/
def multiFooter : String :=
  "Se a pergunta for sobre algo não contido nas fontes, indique que a informação não está disponível. Você não pode pesquisar informações externas. Fale em português do Brasil."

/-- One iteration of the `analyses.forEach` loop (lines 71-77): the block
appended for the analysis at (1-based) position `n`. -/
def sourceBlock (n : Nat) (a : Analysis) : String :=
  "--- INÍCIO DA FONTE " ++ toString n ++ ": \"" ++ a.title ++ "\" ("
    ++ a.type.toStr ++ ") ---\n"
    ++ a.summary ++ "\n"
    ++ "--- FIM DA FONTE " ++ toString n ++ " ---\n\n"

/-- The whole `forEach` accumulation, starting at display index `n`. -/
def sourceBlocks : Nat → List Analysis → String
  | _, [] => ""
  | n, a :: rest => sourceBlock n a ++ sourceBlocks (n + 1) rest

/-- `generateCompositeSystemInstruction` (lines 59-80): dispatch on the
length of the analysis list. -/
def generateCompositeSystemInstruction : List Analysis → String
  | [] => defaultInstruction
  | [a] => getSingleSystemInstruction a
  | analyses => multiHeader ++ sourceBlocks 1 analyses ++ multiFooter

/-- The list of blocks the composite loop emits, in emission order. -/
def sourceBlockList : Nat → List Analysis → List String
  | _, [] => []
  | n, a :: rest => sourceBlock n a :: sourceBlockList (n + 1) rest

/-- Concatenation of a list of strings in order. -/
def concatAll : List String → String
  | [] => ""
  | s :: rest => s ++ concatAll rest

theorem sourceBlocks_eq_concat (n : Nat) (as : List Analysis) :
    sourceBlocks n as = concatAll (sourceBlockList n as) := by
  induction as generalizing n with
  | nil => rfl
  | cons a rest ih => simp [sourceBlocks, sourceBlockList, concatAll, ih]

theorem sourceBlockList_length (n : Nat) (as : List Analysis) :
    (sourceBlockList n as).length = as.length := by
  induction as generalizing n with
  | nil => rfl
  | cons a rest ih => simp [sourceBlockList, ih]

theorem sourceBlockList_get (as : List Analysis) :
    ∀ (n i : Nat) (hi : i < as.length) (hb : i < (sourceBlockList n as).length),
      (sourceBlockList n as).get ⟨i, hb⟩ = sourceBlock (n + i) (as.get ⟨i, hi⟩) := by
  induction as with
  | nil => intro n i hi; exact absurd hi (by simp)
  | cons a rest ih =>
    intro n i hi hb
    cases i with
    | zero => simp [sourceBlockList]
    | succ j =>
      have hj : j < rest.length := by simpa using hi
      have hbj : j < (sourceBlockList (n + 1) rest).length := by
        simpa [sourceBlockList] using hb
      have := ih (n + 1) j hj hbj
      simpa [sourceBlockList, Nat.add_assoc, Nat.add_comm, Nat.add_left_comm] using this

/-- C1: the compiled system instruction is a pure function of the analysis
list: an empty list yields the fixed default Portuguese-assistant
instruction; a singleton list yields a template selected by first checking
`persona = analyst`, then `type = github`, then `type ∈ {youtube, video}`,
else the generic template, each embedding the analysis's summary verbatim
between the literal knowledge delimiters; a list of length ≥ 2 yields the
composite multi-source template. -/
theorem compile_case_analysis (as : List Analysis) :
    (as = [] →
      generateCompositeSystemInstruction as =
        "Você é um assistente de voz prestativo que fala português do Brasil. Você não tem a capacidade de pesquisar na internet.")
    ∧ (∀ a, as = [a] →
        generateCompositeSystemInstruction as = getSingleSystemInstruction a
        ∧ (a.persona = .analyst →
            generateCompositeSystemInstruction as = analystInstruction a.title a.summary)
        ∧ (a.persona ≠ .analyst → a.type = .github →
            generateCompositeSystemInstruction as = githubInstruction a.title a.summary)
        ∧ (a.persona ≠ .analyst → a.type ≠ .github →
            (a.type = .youtube ∨ a.type = .video) →
            generateCompositeSystemInstruction as = videoInstruction a.title a.summary)
        ∧ (a.persona ≠ .analyst → a.type ≠ .github → a.type ≠ .youtube →
            a.type ≠ .video →
            generateCompositeSystemInstruction as = genericInstruction a.title a.summary)
        ∧ ∃ pre post, generateCompositeSystemInstruction as
            = pre ++ "--- INÍCIO DO CONHECIMENTO ---\n" ++ a.summary
              ++ "\n--- FIM DO CONHECIMENTO ---" ++ post)
    ∧ (2 ≤ as.length →
        generateCompositeSystemInstruction as
          = multiHeader ++ sourceBlocks 1 as ++ multiFooter) := by
  refine ⟨?_, ?_, ?_⟩
  · intro h; subst h; rfl
  · intro a h; subst h
    refine ⟨rfl, ?_, ?_, ?_, ?_, ?_⟩
    · intro hp
      simp only [generateCompositeSystemInstruction, getSingleSystemInstruction, if_pos hp]
    · intro hp ht
      simp only [generateCompositeSystemInstruction, getSingleSystemInstruction,
        if_neg hp, if_pos ht]
    · intro hp ht hv
      simp only [generateCompositeSystemInstruction, getSingleSystemInstruction,
        if_neg hp, if_neg ht, if_pos hv]
    · intro hp ht hy hv
      have hor : ¬(a.type = .youtube ∨ a.type = .video) := by
        intro h; rcases h with h | h
        · exact hy h
        · exact hv h
      simp only [generateCompositeSystemInstruction, getSingleSystemInstruction,
        if_neg hp, if_neg ht, if_neg hor]
    · by_cases hp : a.persona = .analyst
      · exact ⟨analystHeader a.title, analystRoles, by
          simp only [generateCompositeSystemInstruction, getSingleSystemInstruction,
            if_pos hp]
          rfl⟩
      · by_cases ht : a.type = .github
        · exact ⟨githubHeader a.title, githubRoles, by
            simp only [generateCompositeSystemInstruction, getSingleSystemInstruction,
              if_neg hp, if_pos ht]
            rfl⟩
        · by_cases hv : a.type = .youtube ∨ a.type = .video
          · exact ⟨videoHeader a.title, videoRoles, by
              simp only [generateCompositeSystemInstruction, getSingleSystemInstruction,
                if_neg hp, if_neg ht, if_pos hv]
              rfl⟩
          · exact ⟨genericHeader a.title, genericRoles, by
              simp only [generateCompositeSystemInstruction, getSingleSystemInstruction,
                if_neg hp, if_neg ht, if_neg hv]
              rfl⟩
  · intro h
    match as, h with
    | a :: b :: t, _ => rfl

/-- Witness for `compile_case_analysis` at a concrete singleton list with a
GitHub analysis: the instruction is the GitHub template. -/
theorem compile_case_analysis_witness :
    generateCompositeSystemInstruction
        [⟨"1", "acme/widget", "GitHub: u", "resumo", .github, .assistant⟩]
      = githubInstruction "acme/widget" "resumo" :=
  ((compile_case_analysis
      [⟨"1", "acme/widget", "GitHub: u", "resumo", .github, .assistant⟩]).2.1
      ⟨"1", "acme/widget", "GitHub: u", "resumo", .github, .assistant⟩ rfl).2.2.1
    (by decide) rfl

/-- C2: for lists of length ≥ 2 the compiled instruction is the composite
header, followed by exactly one block per analysis in accumulation order —
block `i` wrapping the `i`-th title and summary between the numbered
`--- INÍCIO DA FONTE i+1 ... ---` / `--- FIM DA FONTE i+1 ---` delimiters —
followed by the composite footer. -/
theorem compile_composite_blocks (as : List Analysis) (h : 2 ≤ as.length) :
    generateCompositeSystemInstruction as
      = multiHeader ++ concatAll (sourceBlockList 1 as) ++ multiFooter
    ∧ (sourceBlockList 1 as).length = as.length
    ∧ ∀ (i : Nat) (hi : i < as.length) (hb : i < (sourceBlockList 1 as).length),
        (sourceBlockList 1 as).get ⟨i, hb⟩
          = "--- INÍCIO DA FONTE " ++ toString (i + 1) ++ ": \""
            ++ (as.get ⟨i, hi⟩).title ++ "\" ("
            ++ (as.get ⟨i, hi⟩).type.toStr ++ ") ---\n"
            ++ (as.get ⟨i, hi⟩).summary ++ "\n"
            ++ "--- FIM DA FONTE " ++ toString (i + 1) ++ " ---\n\n" := by
  refine ⟨?_, sourceBlockList_length 1 as, ?_⟩
  · have hform : generateCompositeSystemInstruction as
        = multiHeader ++ sourceBlocks 1 as ++ multiFooter := by
      match as, h with
      | a :: b :: t, _ => rfl
    rw [hform, sourceBlocks_eq_concat]
  · intro i hi hb
    rw [sourceBlockList_get as 1 i hi hb]
    have : 1 + i = i + 1 := Nat.add_comm 1 i
    rw [this]
    rfl

/-- Witness for `compile_composite_blocks` at a concrete two-element list. -/
theorem compile_composite_blocks_witness :
    generateCompositeSystemInstruction
        [⟨"1", "A", "sa", "ra", .url, .assistant⟩,
         ⟨"2", "B", "sb", "rb", .github, .assistant⟩]
      = multiHeader
        ++ concatAll (sourceBlockList 1
              [⟨"1", "A", "sa", "ra", .url, .assistant⟩,
               ⟨"2", "B", "sb", "rb", .github, .assistant⟩])
        ++ multiFooter :=
  (compile_composite_blocks
      [⟨"1", "A", "sa", "ra", .url, .assistant⟩,
       ⟨"2", "B", "sb", "rb", .github, .assistant⟩] (by decide)).1

/-! ## Character-list string primitives

The TS code uses `String.prototype.endsWith`, `includes`, `toLowerCase`,
`trim` and regular expressions.  These are embedded as executable functions
on `List Char` (a Lean `String` is a structure around its `List Char`). -/

/-- `p` is a prefix of `l` (embeds `String.prototype.startsWith`). -/
def startsWithCh : List Char → List Char → Bool
  | [], _ => true
  | _ :: _, [] => false
  | p :: ps, c :: cs => p == c && startsWithCh ps cs

theorem startsWithCh_iff (p l : List Char) :
    startsWithCh p l = true ↔ ∃ t, l = p ++ t := by
  induction p generalizing l with
  | nil => simp [startsWithCh]
  | cons x ps ih =>
    cases l with
    | nil => simp [startsWithCh]
    | cons c cs =>
      simp only [startsWithCh, Bool.and_eq_true, beq_iff_eq, ih]
      constructor
      · rintro ⟨rfl, t, rfl⟩; exact ⟨t, rfl⟩
      · rintro ⟨t, h⟩
        injection h with h1 h2
        exact ⟨h1.symm, t, h2⟩

/-- `p` is a suffix of `l` (embeds `String.prototype.endsWith` and the
anchored regexes `/\.git$/`, `/\/$/`). -/
def endsWithCh (p l : List Char) : Bool :=
  startsWithCh p.reverse l.reverse

theorem endsWithCh_iff (p l : List Char) :
    endsWithCh p l = true ↔ ∃ a, l = a ++ p := by
  rw [endsWithCh, startsWithCh_iff]
  constructor
  · rintro ⟨t, h⟩
    refine ⟨t.reverse, ?_⟩
    have := congrArg List.reverse h
    simpa using this
  · rintro ⟨a, rfl⟩
    exact ⟨a.reverse, by simp⟩

/-- `p` occurs somewhere in `l` (embeds `String.prototype.includes`). -/
def containsCh (p : List Char) : List Char → Bool
  | [] => startsWithCh p []
  | c :: rest => startsWithCh p (c :: rest) || containsCh p rest

theorem containsCh_iff (p l : List Char) :
    containsCh p l = true ↔ ∃ a b, l = a ++ p ++ b := by
  induction l with
  | nil =>
    simp only [containsCh, startsWithCh_iff]
    constructor
    · rintro ⟨t, h⟩
      exact ⟨[], t, h⟩
    · rintro ⟨a, b, h⟩
      cases a with
      | nil => exact ⟨b, h⟩
      | cons x xs => simp at h
  | cons c cs ih =>
    simp only [containsCh, Bool.or_eq_true, startsWithCh_iff, ih]
    constructor
    · rintro (⟨t, h⟩ | ⟨a, b, h⟩)
      · exact ⟨[], t, h⟩
      · exact ⟨c :: a, b, by simp [h]⟩
    · rintro ⟨a, b, h⟩
      cases a with
      | nil => exact Or.inl ⟨b, h⟩
      | cons x xs =>
        injection h with h1 h2
        exact Or.inr ⟨xs, b, h2⟩

/-- String wrapper: `s.startsWith(pat)`. -/
def strStartsWith (s pat : String) : Bool := startsWithCh pat.data s.data

/-- String wrapper: `s.endsWith(pat)`. -/
def strEndsWith (s pat : String) : Bool := endsWithCh pat.data s.data

/-- String wrapper: `s.includes(pat)`. -/
def strContains (s pat : String) : Bool := containsCh pat.data s.data

/-- `String.prototype.toLowerCase`, character-wise (ASCII range; the
file names and extensions the dispatch inspects are ASCII). -/
def strToLower (s : String) : String := ⟨s.data.map Char.toLower⟩

/-- `String.prototype.trim`: strip leading and trailing whitespace. -/
def strTrim (s : String) : String :=
  ⟨((s.data.dropWhile Char.isWhitespace).reverse.dropWhile Char.isWhitespace).reverse⟩

/-! ## File classification (`createWorker` in `src/analysis-service.ts`,
lines 61-121)

The worker's `onmessage` dispatch classifies the uploaded file from
`(file.name.toLowerCase(), file.type)` alone; the heavy parsing libraries
only produce the `content` payload, never the `type` tag. -/

/-- Parsed-result tag `type ∈ {csv, text, base64}`. -/
inductive FType where
  | csv
  | text
  | base64
deriving DecidableEq, Repr

/-- First worker dispatch condition (spreadsheets), analysis-service.ts
lines 76-79. `fn` is the already-lowercased file name. -/
def spreadsheetMatch (fn mime : String) : Bool :=
  strEndsWith fn ".csv" || mime == "text/csv" || strEndsWith fn ".xlsx"
    || strContains mime "spreadsheet" || strEndsWith fn ".xls"

/-- Second worker dispatch condition (word processor), lines 90-92. -/
def wordMatch (fn mime : String) : Bool :=
  strEndsWith fn ".doc" || strEndsWith fn ".docx" || strContains mime "wordprocessingml"

/-- Third worker dispatch condition (markdown / XML), lines 96-99. -/
def markdownXmlMatch (fn mime : String) : Bool :=
  strEndsWith fn ".md" || mime == "text/markdown" || strEndsWith fn ".xlm"
    || mime == "application/xml" || mime == "text/xml"

/-- The worker's classification of `(file.name, file.type)` into the parsed
result `type` tag, with the `mimeType` field every result branch carries. -/
def classifyFile (name mime : String) : FType × String :=
  let fn := strToLower name
  if spreadsheetMatch fn mime then (.csv, mime)
  else if wordMatch fn mime then (.text, mime)
  else if markdownXmlMatch fn mime then (.text, mime)
  else (.base64, mime)

/-- C9: file classification is a pure function of `(filename, mimeType)`,
checked in order with first match winning — spreadsheet names/MIME → `csv`,
word-processor names/MIME → `text`, markdown/XML names/MIME → `text`,
everything else → `base64` with the MIME type preserved — and in particular
`("report.xlsx", spreadsheet MIME) → csv`, `("notes.md", "text/markdown") →
text`, `("photo.png", "image/png") → base64`. -/
theorem classifyFile_dispatch :
    (∀ name mime : String,
      (spreadsheetMatch (strToLower name) mime = true →
        classifyFile name mime = (.csv, mime))
      ∧ (spreadsheetMatch (strToLower name) mime = false →
          wordMatch (strToLower name) mime = true →
          classifyFile name mime = (.text, mime))
      ∧ (spreadsheetMatch (strToLower name) mime = false →
          wordMatch (strToLower name) mime = false →
          markdownXmlMatch (strToLower name) mime = true →
          classifyFile name mime = (.text, mime))
      ∧ (spreadsheetMatch (strToLower name) mime = false →
          wordMatch (strToLower name) mime = false →
          markdownXmlMatch (strToLower name) mime = false →
          classifyFile name mime = (.base64, mime)))
    ∧ classifyFile "report.xlsx"
        "application/vnd.openxmlformats-officedocument.spreadsheetml.sheet"
        = (.csv, "application/vnd.openxmlformats-officedocument.spreadsheetml.sheet")
    ∧ classifyFile "notes.md" "text/markdown" = (.text, "text/markdown")
    ∧ classifyFile "photo.png" "image/png" = (.base64, "image/png") := by
  refine ⟨?_, by decide, by decide, by decide⟩
  intro name mime
  refine ⟨?_, ?_, ?_, ?_⟩
  · intro h1; simp [classifyFile, h1]
  · intro h1 h2; simp [classifyFile, h1, h2]
  · intro h1 h2 h3; simp [classifyFile, h1, h2, h3]
  · intro h1 h2 h3; simp [classifyFile, h1, h2, h3]

/-- Witness for `classifyFile_dispatch` at a concrete spreadsheet file. -/
theorem classifyFile_dispatch_witness :
    classifyFile "data.csv" "text/csv" = (.csv, "text/csv") :=
  (classifyFile_dispatch.1 "data.csv" "text/csv").1 (by decide)

/-! ## GitHub URL parsing (`parseGitHubUrl`, analysis-service.ts lines 277-283)

```
const repoMatch = url.match(/github\.com\/([^\/]+\/[^\/]+)/);
if (!repoMatch) return null;
const repoPath = repoMatch[1].replace(/\.git$/, '').replace(/\/$/, '');
const [owner, repo] = repoPath.split('/');
return {owner, repo};
```

The regex is embedded as an executable scan: `[^\/]+` greedily takes a
maximal nonempty slash-free run, and `match` takes the leftmost position at
which the whole pattern matches.  A missing second destructured component
(`repo === undefined`, possible only when the captured path collapses to a
single segment after suffix stripping) is modelled as `""`. -/

/-- The literal part of the regex, `github.com/`. -/
def ghPat : List Char := "github.com/".data

/-- The capture `([^\/]+\/[^\/]+)` attempted right after the literal:
a maximal nonempty slash-free run, a slash, a maximal nonempty slash-free
run.  `rest.dropWhile` is empty exactly when no `/` follows the first run;
when it is nonempty its head is that `/`, so the second run starts at
`drop 1`. -/
def ghSegs (rest : List Char) : Option (List Char) :=
  let s1 := rest.takeWhile (fun c => c != '/')
  let d := rest.dropWhile (fun c => c != '/')
  if s1 = [] then none
  else if d = [] then none
  else
    let s2 := (d.drop 1).takeWhile (fun c => c != '/')
    if s2 = [] then none else some (s1 ++ '/' :: s2)

/-- Whole-pattern match attempt at one start position. -/
def ghMatchAt (l : List Char) : Option (List Char) :=
  if startsWithCh ghPat l then ghSegs (l.drop ghPat.length) else none

/-- Leftmost-match scan over all start positions (JS `String.match`). -/
def ghScan : List Char → Option (List Char)
  | [] => none
  | c :: rest =>
    match ghMatchAt (c :: rest) with
    | some cap => some cap
    | none => ghScan rest

/-- `l.replace(/suf$/, '')` for a literal suffix `suf`. -/
def stripSuffixCh (suf l : List Char) : List Char :=
  if endsWithCh suf l then l.take (l.length - suf.length) else l

/-- `String.prototype.split('/')` on a character list. -/
def splitOnSlashCh : List Char → List (List Char)
  | [] => [[]]
  | c :: rest =>
    if c = '/' then [] :: splitOnSlashCh rest
    else
      match splitOnSlashCh rest with
      | h :: t => (c :: h) :: t
      | [] => [[c]]

/-- `parseGitHubUrl` (analysis-service.ts lines 277-283). -/
def parseGitHubUrl (url : String) : Option (String × String) :=
  match ghScan url.data with
  | none => none
  | some cap =>
    let repoPath := stripSuffixCh ['/'] (stripSuffixCh ".git".data cap)
    let parts := splitOnSlashCh repoPath
    some (⟨parts.headD []⟩, ⟨(parts.drop 1).headD []⟩)

theorem takeWhile_sep (a b : List Char) (h : '/' ∉ a) :
    (a ++ '/' :: b).takeWhile (fun c => c != '/') = a
      ∧ (a ++ '/' :: b).dropWhile (fun c => c != '/') = '/' :: b := by
  induction a with
  | nil => simp [List.takeWhile_cons, List.dropWhile_cons]
  | cons x xs ih =>
    have hx : x ≠ '/' := fun hh => h (hh ▸ List.mem_cons_self x xs)
    have hxs : '/' ∉ xs := fun hh => h (List.mem_cons_of_mem x hh)
    obtain ⟨h1, h2⟩ := ih hxs
    constructor
    · simp only [List.cons_append, List.takeWhile_cons, bne_iff_ne, ne_eq, hx,
        not_false_eq_true, if_true, h1]
    · simp only [List.cons_append, List.dropWhile_cons, bne_iff_ne, ne_eq, hx,
        not_false_eq_true, if_true, h2]

theorem takeWhile_all_ne (a : List Char) (h : '/' ∉ a) :
    a.takeWhile (fun c => c != '/') = a := by
  induction a with
  | nil => rfl
  | cons x xs ih =>
    have hx : x ≠ '/' := fun hh => h (hh ▸ List.mem_cons_self x xs)
    have hxs : '/' ∉ xs := fun hh => h (List.mem_cons_of_mem x hh)
    simp only [List.takeWhile_cons, bne_iff_ne, ne_eq, hx, not_false_eq_true,
      if_true, ih hxs]

theorem dropWhile_head_false {α : Type} {p : α → Bool} :
    ∀ (l : List α) (c : α) (t : List α), l.dropWhile p = c :: t → p c = false := by
  intro l
  induction l with
  | nil => intro c t h; exact absurd h (by simp)
  | cons x xs ih =>
    intro c t h
    by_cases hx : p x = true
    · rw [List.dropWhile_cons, if_pos hx] at h
      exact ih c t h
    · rw [List.dropWhile_cons, if_neg hx] at h
      injection h with h1 _
      subst h1
      exact Bool.eq_false_iff.2 hx

theorem ghSegs_of_decomp (s1 s2 post : List Char)
    (h1 : s1 ≠ []) (h2 : s2 ≠ []) (n1 : '/' ∉ s1) (n2 : '/' ∉ s2)
    (hmax : post = [] ∨ ∃ t, post = '/' :: t) :
    ghSegs (s1 ++ '/' :: (s2 ++ post)) = some (s1 ++ '/' :: s2) := by
  have htake := (takeWhile_sep s1 (s2 ++ post) n1).1
  have hdrop := (takeWhile_sep s1 (s2 ++ post) n1).2
  have htake2 : (s2 ++ post).takeWhile (fun c => c != '/') = s2 := by
    rcases hmax with rfl | ⟨t, rfl⟩
    · simpa using takeWhile_all_ne s2 n2
    · exact (takeWhile_sep s2 t n2).1
  simp only [ghSegs, htake, hdrop, if_neg h1, List.drop_one, List.tail_cons,
    htake2, if_neg h2]
  simp

theorem ghSegs_some (rest cap : List Char) (h : ghSegs rest = some cap) :
    ∃ s1 s2 post, rest = s1 ++ '/' :: (s2 ++ post) ∧ cap = s1 ++ '/' :: s2
      ∧ s1 ≠ [] ∧ s2 ≠ [] ∧ '/' ∉ s1 ∧ '/' ∉ s2 := by
  simp only [ghSegs] at h
  by_cases h1 : rest.takeWhile (fun c => c != '/') = []
  · rw [if_pos h1] at h; exact absurd h (by simp)
  rw [if_neg h1] at h
  by_cases h2 : rest.dropWhile (fun c => c != '/') = []
  · rw [if_pos h2] at h; exact absurd h (by simp)
  rw [if_neg h2] at h
  by_cases h3 :
      ((rest.dropWhile (fun c => c != '/')).drop 1).takeWhile (fun c => c != '/') = []
  · rw [if_pos h3] at h; exact absurd h (by simp)
  rw [if_neg h3] at h
  injection h with hcap
  obtain ⟨c, d, hd⟩ : ∃ c d, rest.dropWhile (fun c => c != '/') = c :: d := by
    cases hdw : rest.dropWhile (fun c => c != '/') with
    | nil => exact absurd hdw h2
    | cons c d => exact ⟨c, d, rfl⟩
  have hc : c = '/' := by
    have := dropWhile_head_false rest c d hd
    simpa [bne_iff_ne] using this
  subst hc
  refine ⟨rest.takeWhile (fun c => c != '/'),
    (d.takeWhile (fun c => c != '/')),
    (d.dropWhile (fun c => c != '/')), ?_, ?_, h1, ?_, ?_, ?_⟩
  · conv_lhs => rw [← List.takeWhile_append_dropWhile (fun c => c != '/') rest]
    rw [hd]
    congr 1
    congr 1
    conv_lhs => rw [← List.takeWhile_append_dropWhile (fun c => c != '/') d]
  · rw [← hcap]
    congr 2
    rw [hd]
    simp
  · intro hnil
    rw [hd] at h3
    simp [hnil] at h3
  · intro hmem
    have := List.mem_takeWhile_imp hmem
    simp [bne_iff_ne] at this
  · intro hmem
    have := List.mem_takeWhile_imp hmem
    simp [bne_iff_ne] at this

theorem ghMatchAt_nil : ghMatchAt [] = none := by decide

theorem ghScan_eq_some_of_matchAt (l cap : List Char) (h : ghMatchAt l = some cap) :
    ghScan l = some cap := by
  cases l with
  | nil => rw [ghMatchAt_nil] at h; exact absurd h (by simp)
  | cons c rest => simp [ghScan, h]

theorem ghScan_skip (pre rest : List Char)
    (h : ∀ i, i < pre.length → ghMatchAt ((pre ++ rest).drop i) = none) :
    ghScan (pre ++ rest) = ghScan rest := by
  induction pre with
  | nil => rfl
  | cons c pre' ih =>
    have h0 : ghMatchAt (c :: (pre' ++ rest)) = none := by
      simpa using h 0 (by simp)
    have hstep : ghScan (c :: (pre' ++ rest)) = ghScan (pre' ++ rest) := by
      simp [ghScan, h0]
    rw [List.cons_append, hstep]
    exact ih (fun i hi => by simpa using h (i + 1) (by simpa using hi))

theorem ghScan_isSome (a b : List Char) (cap : List Char)
    (h : ghMatchAt b = some cap) : ∃ c, ghScan (a ++ b) = some c := by
  induction a with
  | nil => exact ⟨cap, ghScan_eq_some_of_matchAt b cap h⟩
  | cons x xs ih =>
    obtain ⟨c, hc⟩ := ih
    cases hm : ghMatchAt (x :: (xs ++ b)) with
    | some c2 => exact ⟨c2, by simp [ghScan, hm]⟩
    | none => exact ⟨c, by simp [ghScan, hm, hc]⟩

theorem ghScan_some_decomp (l cap : List Char) (h : ghScan l = some cap) :
    ∃ a b, l = a ++ b ∧ ghMatchAt b = some cap := by
  induction l with
  | nil => exact absurd h (by simp [ghScan])
  | cons c rest ih =>
    cases hm : ghMatchAt (c :: rest) with
    | some c2 =>
      have : c2 = cap := by
        have := h
        simp [ghScan, hm] at this
        exact this
      exact ⟨[], c :: rest, rfl, by rw [hm, this]⟩
    | none =>
      have hrec : ghScan rest = some cap := by
        have := h
        simpa [ghScan, hm] using this
      obtain ⟨a, b, rfl, hb⟩ := ih hrec
      exact ⟨c :: a, b, rfl, hb⟩

theorem ghMatchAt_some (l cap : List Char) (h : ghMatchAt l = some cap) :
    ∃ t, l = ghPat ++ t ∧ ghSegs t = some cap := by
  unfold ghMatchAt at h
  by_cases hs : startsWithCh ghPat l = true
  · obtain ⟨t, rfl⟩ := (startsWithCh_iff _ _).1 hs
    rw [if_pos hs, List.drop_left] at h
    exact ⟨t, rfl, h⟩
  · rw [if_neg hs] at h
    exact absurd h (by simp)

theorem ghSegs_isSome_of_decomp (s1 s2 post : List Char)
    (h1 : s1 ≠ []) (h2 : s2 ≠ []) (n1 : '/' ∉ s1) (n2 : '/' ∉ s2) :
    ∃ cap, ghSegs (s1 ++ '/' :: (s2 ++ post)) = some cap := by
  have htake := (takeWhile_sep s1 (s2 ++ post) n1).1
  have hdrop := (takeWhile_sep s1 (s2 ++ post) n1).2
  refine ⟨s1 ++ '/' :: (s2 ++ post).takeWhile (fun c => c != '/'), ?_⟩
  simp only [ghSegs, htake, hdrop, if_neg h1, List.drop_one, List.tail_cons]
  rw [if_neg (by simp), if_neg ?hs2]
  case hs2 =>
    cases s2 with
    | nil => exact absurd rfl h2
    | cons c cs =>
      have hc : c ≠ '/' := fun hh => n2 (hh ▸ List.mem_cons_self c cs)
      simp [List.takeWhile_cons, bne_iff_ne, hc]

theorem ghMatchAt_none_early (pre R : List Char)
    (hfirst : containsCh ghPat (pre ++ "github.com".data) = false)
    (i : Nat) (hi : i < pre.length) :
    ghMatchAt ((pre ++ (ghPat ++ R)).drop i) = none := by
  cases hb : startsWithCh ghPat ((pre ++ (ghPat ++ R)).drop i) with
  | false => simp [ghMatchAt, hb]
  | true =>
    exfalso
    obtain ⟨t, ht⟩ := (startsWithCh_iff _ _).1 hb
    have hlen : ghPat.length = 11 := by decide
    have hKtake : (pre ++ (ghPat ++ R)).take (pre.length + 10)
        = pre ++ "github.com".data := by
      rw [List.take_append_eq_append_take, List.take_of_length_le (by omega),
        List.take_append_eq_append_take]
      have h10 : pre.length + 10 - pre.length = 10 := by omega
      rw [h10, hlen]
      have hg : ghPat.take 10 = "github.com".data := by decide
      rw [hg]
      simp
    have hdt : ((pre ++ (ghPat ++ R)).take (pre.length + 10)).drop i
        = ghPat ++ t.take (pre.length + 10 - i - 11) := by
      rw [List.drop_take, ht, List.take_append_eq_append_take,
        List.take_of_length_le (by rw [hlen]; omega), hlen]
    have hcontra : containsCh ghPat (pre ++ "github.com".data) = true := by
      rw [containsCh_iff]
      refine ⟨((pre ++ (ghPat ++ R)).take (pre.length + 10)).take i,
        t.take (pre.length + 10 - i - 11), ?_⟩
      rw [← hKtake]
      conv_lhs =>
        rw [← List.take_append_drop i ((pre ++ (ghPat ++ R)).take (pre.length + 10))]
      rw [hdt, List.append_assoc]
    rw [hfirst] at hcontra
    exact Bool.false_ne_true hcontra

theorem suffix_through_sep (x : List Char) (c : Char) (y g : List Char)
    (hcg : c ∉ g) (h : ∃ b, x ++ c :: y = b ++ g) : ∃ a, y = a ++ g := by
  obtain ⟨b, hb⟩ := h
  induction x generalizing b with
  | nil =>
    cases b with
    | nil =>
      simp only [List.nil_append] at hb
      exact absurd (hb ▸ List.mem_cons_self c y) hcg
    | cons d b2 =>
      simp only [List.nil_append, List.cons_append] at hb
      injection hb with _ h2
      exact ⟨b2, h2⟩
  | cons e x2 ih =>
    cases b with
    | nil =>
      simp only [List.cons_append, List.nil_append] at hb
      exfalso
      apply hcg
      rw [← hb]
      exact List.mem_cons_of_mem e (List.mem_append.2 (Or.inr (List.mem_cons_self c y)))
    | cons d b2 =>
      simp only [List.cons_append] at hb
      injection hb with _ h2
      exact ih b2 h2

theorem stripSuffixCh_append (suf b : List Char) :
    stripSuffixCh suf (b ++ suf) = b := by
  unfold stripSuffixCh
  rw [if_pos ((endsWithCh_iff _ _).2 ⟨b, rfl⟩)]
  have hlen : (b ++ suf).length - suf.length = b.length := by simp
  rw [hlen, List.take_left]

theorem stripSuffixCh_of_not (suf l : List Char) (h : endsWithCh suf l = false) :
    stripSuffixCh suf l = l := by
  unfold stripSuffixCh
  rw [h]
  simp

theorem endsWithSlash_false (y : List Char) (hc : '/' ∉ y) :
    endsWithCh ['/'] y = false := by
  cases hE : endsWithCh ['/'] y with
  | false => rfl
  | true =>
    exfalso
    obtain ⟨b, hb⟩ := (endsWithCh_iff _ _).1 hE
    exact hc (hb ▸ List.mem_append.2 (Or.inr (List.mem_cons_self _ _)))

theorem lastNotSlash (x y : List Char) (hy : y ≠ []) (hc : '/' ∉ y) :
    endsWithCh ['/'] (x ++ '/' :: y) = false := by
  cases hE : endsWithCh ['/'] (x ++ '/' :: y) with
  | false => rfl
  | true =>
    exfalso
    obtain ⟨b, hb⟩ := (endsWithCh_iff _ _).1 hE
    have hrev := congrArg List.reverse hb
    rw [List.reverse_append, List.reverse_append, List.reverse_cons] at hrev
    cases hyr : y.reverse with
    | nil => exact hy (List.reverse_eq_nil_iff.1 hyr)
    | cons z zs =>
      rw [hyr] at hrev
      simp only [List.cons_append, List.append_assoc, List.reverse_cons,
        List.reverse_nil, List.nil_append] at hrev
      have hz : z = '/' := by
        have h0 := congrArg (fun l => l.headD ' ') hrev
        simpa using h0
      have hmem : z ∈ y.reverse := by rw [hyr]; exact List.mem_cons_self _ _
      rw [List.mem_reverse] at hmem
      exact hc (hz ▸ hmem)

theorem splitOnSlash_noSlash (a : List Char) (h : '/' ∉ a) :
    splitOnSlashCh a = [a] := by
  induction a with
  | nil => rfl
  | cons c cs ih =>
    have hc : c ≠ '/' := fun hh => h (hh ▸ List.mem_cons_self c cs)
    have hcs : '/' ∉ cs := fun hh => h (List.mem_cons_of_mem c hh)
    simp [splitOnSlashCh, hc, ih hcs]

theorem splitOnSlash_pair (s1 a : List Char) (h1 : '/' ∉ s1) (h2 : '/' ∉ a) :
    splitOnSlashCh (s1 ++ '/' :: a) = [s1, a] := by
  induction s1 with
  | nil => simp [splitOnSlashCh, splitOnSlash_noSlash a h2]
  | cons c cs ih =>
    have hc : c ≠ '/' := fun hh => h1 (hh ▸ List.mem_cons_self c cs)
    have hcs : '/' ∉ cs := fun hh => h1 (List.mem_cons_of_mem c hh)
    simp [splitOnSlashCh, hc, ih hcs]

theorem parse_cap_value (s1 s2 : List Char) (h2 : s2 ≠ []) (n1 : '/' ∉ s1)
    (n2 : '/' ∉ s2) :
    (splitOnSlashCh (stripSuffixCh ['/'] (stripSuffixCh ".git".data (s1 ++ '/' :: s2)))).headD []
      = s1
    ∧ ((splitOnSlashCh (stripSuffixCh ['/'] (stripSuffixCh ".git".data (s1 ++ '/' :: s2)))).drop 1).headD []
      = stripSuffixCh ['/'] (stripSuffixCh ".git".data s2) := by
  by_cases hA : endsWithCh ".git".data s2 = true
  · obtain ⟨a, rfl⟩ := (endsWithCh_iff _ _).1 hA
    have na : '/' ∉ a := fun hm => n2 (List.mem_append.2 (Or.inl hm))
    have hstrip1 : stripSuffixCh ".git".data (s1 ++ '/' :: (a ++ ".git".data))
        = s1 ++ '/' :: a := by
      have hassoc : s1 ++ '/' :: (a ++ ".git".data)
          = (s1 ++ '/' :: a) ++ ".git".data := by simp
      rw [hassoc, stripSuffixCh_append]
    have hstrip2 : stripSuffixCh ".git".data (a ++ ".git".data) = a :=
      stripSuffixCh_append _ _
    rw [hstrip1, hstrip2]
    by_cases ha : a = []
    · subst ha
      have e1 : stripSuffixCh ['/'] (s1 ++ '/' :: ([] : List Char)) = s1 := by
        have hs : s1 ++ '/' :: ([] : List Char) = s1 ++ ['/'] := rfl
        rw [hs, stripSuffixCh_append]
      have e2 : stripSuffixCh ['/'] ([] : List Char) = [] := by decide
      rw [e1, e2, splitOnSlash_noSlash s1 n1]
      exact ⟨rfl, rfl⟩
    · have e1 : stripSuffixCh ['/'] (s1 ++ '/' :: a) = s1 ++ '/' :: a :=
        stripSuffixCh_of_not _ _ (lastNotSlash s1 a ha na)
      have e2 : stripSuffixCh ['/'] a = a :=
        stripSuffixCh_of_not _ _ (endsWithSlash_false a na)
      rw [e1, e2, splitOnSlash_pair s1 a n1 na]
      exact ⟨rfl, rfl⟩
  · have hAf : endsWithCh ".git".data s2 = false := Bool.eq_false_iff.2 hA
    have hB : endsWithCh ".git".data (s1 ++ '/' :: s2) = false := by
      cases hBB : endsWithCh ".git".data (s1 ++ '/' :: s2) with
      | false => rfl
      | true =>
        exfalso
        obtain ⟨b, hb⟩ := (endsWithCh_iff _ _).1 hBB
        obtain ⟨a, ha⟩ := suffix_through_sep s1 '/' s2 ".git".data (by decide) ⟨b, hb⟩
        exact hA ((endsWithCh_iff _ _).2 ⟨a, ha⟩)
    rw [stripSuffixCh_of_not _ _ hB, stripSuffixCh_of_not _ _ hAf,
      stripSuffixCh_of_not _ _ (lastNotSlash s1 s2 h2 n2),
      stripSuffixCh_of_not _ _ (endsWithSlash_false s2 n2),
      splitOnSlash_pair s1 s2 n1 n2]
    exact ⟨rfl, rfl⟩

/-- C10: GitHub URL parsing is permissive — it fails (returns `null`, the
`InvalidUrl` outcome) exactly when the URL has no substring
`github.com/<seg1>/<seg2>` with nonempty slash-free segments; and at the
first such occurrence (with `seg2` maximal, i.e. followed by `/` or the
end), it returns `owner = seg1` and `repo = seg2` with a trailing `.git`
(and a then-trailing `/`) stripped — extra path segments after the repo are
ignored rather than rejected. -/
theorem parseGitHubUrl_spec :
    (∀ url : String, parseGitHubUrl url = none ↔
      ¬ ∃ pre s1 s2 post : List Char,
          url.data = pre ++ ghPat ++ s1 ++ '/' :: s2 ++ post
          ∧ s1 ≠ [] ∧ s2 ≠ [] ∧ '/' ∉ s1 ∧ '/' ∉ s2)
    ∧ (∀ (url : String) (pre s1 s2 post : List Char),
        url.data = pre ++ ghPat ++ s1 ++ '/' :: s2 ++ post →
        s1 ≠ [] → s2 ≠ [] → '/' ∉ s1 → '/' ∉ s2 →
        (post = [] ∨ ∃ t, post = '/' :: t) →
        containsCh ghPat (pre ++ "github.com".data) = false →
        parseGitHubUrl url
          = some (⟨s1⟩, ⟨stripSuffixCh ['/'] (stripSuffixCh ".git".data s2)⟩)) := by
  constructor
  · intro url
    constructor
    · intro hnone hex
      obtain ⟨pre, s1, s2, post, hurl, h1, h2, n1, n2⟩ := hex
      obtain ⟨cap, hcap⟩ := ghSegs_isSome_of_decomp s1 s2 post h1 h2 n1 n2
      have hm : ghMatchAt (ghPat ++ (s1 ++ '/' :: (s2 ++ post))) = some cap := by
        unfold ghMatchAt
        rw [if_pos ((startsWithCh_iff _ _).2 ⟨_, rfl⟩), List.drop_left]
        exact hcap
      obtain ⟨c2, hscan⟩ := ghScan_isSome pre _ cap hm
      have hurl2 : url.data = pre ++ (ghPat ++ (s1 ++ ('/' :: (s2 ++ post)))) := by
        rw [hurl]; simp
      have : parseGitHubUrl url ≠ none := by
        simp only [parseGitHubUrl]
        rw [hurl2, hscan]
        simp
      exact this hnone
    · intro hnex
      cases hp : parseGitHubUrl url with
      | none => rfl
      | some v =>
        exfalso
        apply hnex
        have hscan : ∃ cap, ghScan url.data = some cap := by
          cases hs : ghScan url.data with
          | none => simp [parseGitHubUrl, hs] at hp
          | some cap => exact ⟨cap, rfl⟩
        obtain ⟨cap, hs⟩ := hscan
        obtain ⟨a, b, hab, hmb⟩ := ghScan_some_decomp url.data cap hs
        obtain ⟨t, rfl, hsegs⟩ := ghMatchAt_some b cap hmb
        obtain ⟨s1, s2, post, ht, _, h1, h2, n1, n2⟩ := ghSegs_some t cap hsegs
        exact ⟨a, s1, s2, post, by rw [hab, ht]; simp, h1, h2, n1, n2⟩
  · intro url pre s1 s2 post hurl h1 h2 n1 n2 hmax hfirst
    have hurl2 : url.data = pre ++ (ghPat ++ (s1 ++ ('/' :: (s2 ++ post)))) := by
      rw [hurl]; simp
    have hscan : ghScan url.data = some (s1 ++ '/' :: s2) := by
      rw [hurl2]
      rw [ghScan_skip pre (ghPat ++ (s1 ++ '/' :: (s2 ++ post)))
        (fun i hi => ghMatchAt_none_early pre _ hfirst i hi)]
      apply ghScan_eq_some_of_matchAt
      unfold ghMatchAt
      rw [if_pos ((startsWithCh_iff _ _).2 ⟨_, rfl⟩), List.drop_left]
      exact ghSegs_of_decomp s1 s2 post h1 h2 n1 n2 hmax
    simp only [parseGitHubUrl, hscan]
    obtain ⟨e1, e2⟩ := parse_cap_value s1 s2 h2 n1 n2
    rw [e1, e2]

/-- Witness for `parseGitHubUrl_spec` at a concrete URL with extra path
segments: they are ignored. -/
theorem parseGitHubUrl_spec_witness :
    parseGitHubUrl "https://github.com/acme/widget/tree/main"
      = some ("acme", "widget") := by
  have h := parseGitHubUrl_spec.2 "https://github.com/acme/widget/tree/main"
    "https://".data "acme".data "widget".data "/tree/main".data
    (by decide) (by decide) (by decide) (by decide) (by decide)
    (Or.inr ⟨"tree/main".data, by decide⟩) (by decide)
  rw [h]
  decide

/-! ## Timeline events and summary checks -/

/-- `TimelineEvent['type']`. -/
inductive EType where
  | info
  | success
  | error
  | record
  | process
  | connect
  | disconnect
deriving DecidableEq, Repr

/-- A `TimelineEvent` minus its wall-clock timestamp (`Date` output, not
modelled; no claim mentions it). -/
structure Event where
  message : String
  etype : EType
deriving DecidableEq, Repr

/-- The shared shape of every summary check in `analysis-service.ts`:
`const text = response.text; if (!text?.trim()) throw new Error(msg);
return text;` — `response.text` may be absent (`Option`), and a
whitespace-only string is rejected. -/
def requireNonEmpty (errMsg : String) (respText : Option String) : Except String String :=
  match respText with
  | none => .error errMsg
  | some t => if strTrim t = "" then .error errMsg else .ok t

/-- `analyzeContentAndGenerateSummary` (analysis-service.ts lines 46-59),
applied to the completion response's `text`. -/
def analyzeContentAndGenerateSummary : Option String → Except String String :=
  requireNonEmpty "A análise retornou um resultado vazio."

/-- The inline check in `analyzeGitHubUrl` (lines 387-390). -/
def githubSummaryCheck : Option String → Except String String :=
  requireNonEmpty "A análise do GitHub retornou um resultado vazio."

/-- The inline check in `performDeepSearch` (lines 509-512). -/
def deepSearchSummaryCheck : Option String → Except String String :=
  requireNonEmpty "A pesquisa aprofundada retornou um resultado vazio."

theorem requireNonEmpty_ok (m : String) (t : Option String) (s : String)
    (h : requireNonEmpty m t = .ok s) : strTrim s ≠ "" := by
  cases t with
  | none => exact absurd h (by simp [requireNonEmpty])
  | some v =>
    by_cases hv : strTrim v = ""
    · rw [requireNonEmpty, if_pos hv] at h
      exact absurd h (by simp)
    · rw [requireNonEmpty, if_neg hv] at h
      injection h with hs
      exact hs ▸ hv

/-! ## GitHub repository fetch (`fetchGitHubRepoInfo` /
`analyzeGitHubUrl`, analysis-service.ts lines 285-398)

HTTP responses are parameters: each carries the `status` the code branches
on plus the payload fields the code reads (`content` already base64-decoded
— the code's `atob` is not re-modelled; `default_branch` only selects the
tree URL; the tree's `tree[].path` list and `truncated` flag).
`fetchWithRetry` (in `utils.ts`, not under `src/`) is opaque per the spec —
callers see only the final response — so the response parameters stand for
its final outcome.  The first component of the result records which of the
three external calls were issued, in order. -/

/-- `Response.ok`: status in the 200-299 range. -/
def httpOk (status : Nat) : Bool := 200 ≤ status && status ≤ 299

/-- README endpoint response (`content` holds the decoded text). -/
structure ReadmeResp where
  status : Nat
  content : String
deriving DecidableEq, Repr

/-- Repo-metadata endpoint response. -/
structure RepoInfoResp where
  status : Nat
  defaultBranch : String
deriving DecidableEq, Repr

/-- Recursive-tree endpoint response. -/
structure TreeResp where
  status : Nat
  paths : List String
  truncated : Bool
deriving DecidableEq, Repr

/-- The record `fetchGitHubRepoInfo` resolves with. -/
structure RepoFetchInfo where
  readmeContent : String
  fileTreeText : String
  isTruncated : Bool
deriving DecidableEq, Repr

/-- Tag for each of the three external GitHub calls. -/
inductive GhCall where
  | readme
  | repoMeta
  | tree
deriving DecidableEq, Repr

/-- `Array.prototype.join('\n')`. -/
def joinNL : List String → String
  | [] => ""
  | [s] => s
  | s :: rest => s ++ "\n" ++ joinNL rest

/-- `fetchGitHubRepoInfo` (analysis-service.ts lines 285-339): README
(404-tolerant), then repo metadata, then recursive tree; any other failure
throws.  Returns the calls issued (in order) with the outcome. -/
def fetchGitHubRepoInfo (owner repo : String) (readme : ReadmeResp)
    (repoInfo : RepoInfoResp) (tree : TreeResp) :
    List GhCall × Except String RepoFetchInfo :=
  let afterReadme : String → List GhCall × Except String RepoFetchInfo :=
    fun readmeContent =>
      if repoInfo.status = 404 then
        ([.readme, .repoMeta],
          .error ("Repositório não encontrado ou é privado: " ++ owner ++ "/" ++ repo ++ "."))
      else if !httpOk repoInfo.status then
        ([.readme, .repoMeta],
          .error ("Não foi possível buscar informações do repositório " ++ owner ++ "/" ++ repo ++ "."))
      else if !httpOk tree.status then
        ([.readme, .repoMeta, .tree],
          .error ("Não foi possível buscar a estrutura de arquivos de " ++ owner ++ "/" ++ repo ++ "."))
      else
        ([.readme, .repoMeta, .tree],
          .ok ⟨readmeContent, joinNL tree.paths, tree.truncated⟩)
  if httpOk readme.status then afterReadme readme.content
  else if readme.status ≠ 404 then
    ([.readme],
      .error ("Não foi possível buscar o README do repositório " ++ owner ++ "/" ++ repo
        ++ ". Status: " ++ toString readme.status))
  else afterReadme ""

/-- `analyzeGitHubUrl` (analysis-service.ts lines 341-398): parse, fetch,
surface a `truncated` tree as an informational timeline event only, then
run the search-augmented summary completion and check it.  The first
component collects the `logEvent` calls in order. -/
def analyzeGitHubUrl (url : String) (readme : ReadmeResp) (repoInfo : RepoInfoResp)
    (tree : TreeResp) (completionText : Option String) :
    List Event × Except String AnalysisResult :=
  match parseGitHubUrl url with
  | none => ([], .error "URL do GitHub inválida. Use o formato https://github.com/owner/repo.")
  | some (owner, repo) =>
    let contentTitle := owner ++ "/" ++ repo
    let ev0 : List Event := [⟨"Iniciando análise do repositório: " ++ contentTitle, .process⟩]
    match fetchGitHubRepoInfo owner repo readme repoInfo tree with
    | (_, .error e) => (ev0, .error e)
    | (_, .ok info) =>
      let ev1 := ev0 ++
        (if info.isTruncated then
          [⟨"A estrutura de arquivos é muito grande e foi truncada.", .info⟩]
        else [])
      match githubSummaryCheck completionText with
      | .error e => (ev1, .error e)
      | .ok s => (ev1, .ok ⟨s, contentTitle, "GitHub: " ++ url, .assistant, .github⟩)

theorem httpOk_404 : httpOk 404 = false := by decide

theorem fetch_tree_flag (owner repo : String) (readme : ReadmeResp)
    (repoInfo : RepoInfoResp) (tree : TreeResp) (b : Bool) :
    fetchGitHubRepoInfo owner repo readme repoInfo ⟨tree.status, tree.paths, b⟩
      = ((fetchGitHubRepoInfo owner repo readme repoInfo tree).1,
         (fetchGitHubRepoInfo owner repo readme repoInfo tree).2.map
           (fun i => ⟨i.readmeContent, i.fileTreeText, b⟩)) := by
  obtain ⟨ts, tp, tb⟩ := tree
  simp only [fetchGitHubRepoInfo]
  by_cases hr : httpOk readme.status = true <;>
    by_cases hm : repoInfo.status = 404 <;>
      by_cases hmo : httpOk repoInfo.status = true <;>
        by_cases hto : httpOk ts = true <;>
          by_cases h404 : readme.status = 404 <;>
            simp [hr, hm, hmo, hto, h404, httpOk_404, Except.map]

/-- C6: the GitHub fetch issues its calls in the fixed order README,
repo metadata, file tree; README 404 → proceed with empty README content;
README other non-OK → failure; repo-metadata 404 → the distinguished
repository-not-found failure; repo-metadata other non-OK → failure; tree
non-OK → failure; and a truncated tree flag yields only an informational
event — the analysis outcome is independent of it. -/
theorem github_fetch_contract (owner repo : String) (readme : ReadmeResp)
    (repoInfo : RepoInfoResp) (tree : TreeResp) :
    ((fetchGitHubRepoInfo owner repo readme repoInfo tree).1 = [.readme]
      ∨ (fetchGitHubRepoInfo owner repo readme repoInfo tree).1 = [.readme, .repoMeta]
      ∨ (fetchGitHubRepoInfo owner repo readme repoInfo tree).1
          = [.readme, .repoMeta, .tree])
    ∧ (httpOk readme.status = false → readme.status ≠ 404 →
        fetchGitHubRepoInfo owner repo readme repoInfo tree
          = ([.readme], .error ("Não foi possível buscar o README do repositório "
              ++ owner ++ "/" ++ repo ++ ". Status: " ++ toString readme.status)))
    ∧ (readme.status = 404 →
        (fetchGitHubRepoInfo owner repo readme repoInfo tree).1 ≠ [.readme]
        ∧ ∀ info, (fetchGitHubRepoInfo owner repo readme repoInfo tree).2 = .ok info →
            info.readmeContent = "")
    ∧ (httpOk readme.status = true ∨ readme.status = 404 →
        repoInfo.status = 404 →
        (fetchGitHubRepoInfo owner repo readme repoInfo tree).2
          = .error ("Repositório não encontrado ou é privado: "
              ++ owner ++ "/" ++ repo ++ "."))
    ∧ (httpOk readme.status = true ∨ readme.status = 404 →
        repoInfo.status ≠ 404 → httpOk repoInfo.status = false →
        (fetchGitHubRepoInfo owner repo readme repoInfo tree).2
          = .error ("Não foi possível buscar informações do repositório "
              ++ owner ++ "/" ++ repo ++ "."))
    ∧ (httpOk readme.status = true ∨ readme.status = 404 →
        httpOk repoInfo.status = true → httpOk tree.status = false →
        (fetchGitHubRepoInfo owner repo readme repoInfo tree).2
          = .error ("Não foi possível buscar a estrutura de arquivos de "
              ++ owner ++ "/" ++ repo ++ "."))
    ∧ (httpOk readme.status = true ∨ readme.status = 404 →
        httpOk repoInfo.status = true → httpOk tree.status = true →
        (fetchGitHubRepoInfo owner repo readme repoInfo tree).2
          = .ok ⟨if httpOk readme.status then readme.content else "",
                 joinNL tree.paths, tree.truncated⟩)
    ∧ (∀ url completionText,
        (analyzeGitHubUrl url readme repoInfo ⟨tree.status, tree.paths, true⟩
            completionText).2
          = (analyzeGitHubUrl url readme repoInfo ⟨tree.status, tree.paths, false⟩
              completionText).2)
    ∧ (∀ url completionText o2 r2 info,
        parseGitHubUrl url = some (o2, r2) →
        (fetchGitHubRepoInfo o2 r2 readme repoInfo tree).2 = .ok info →
        info.isTruncated = true →
        (⟨"A estrutura de arquivos é muito grande e foi truncada.", EType.info⟩ : Event)
          ∈ (analyzeGitHubUrl url readme repoInfo tree completionText).1) := by
  have h404ne : repoInfo.status = 404 → httpOk repoInfo.status = false := by
    intro h; rw [h]; exact httpOk_404
  refine ⟨?_, ?_, ?_, ?_, ?_, ?_, ?_, ?_, ?_⟩
  · by_cases hr : httpOk readme.status = true <;>
      by_cases hm : repoInfo.status = 404 <;>
        by_cases hmo : httpOk repoInfo.status = true <;>
          by_cases hto : httpOk tree.status = true <;>
            by_cases h404 : readme.status = 404 <;>
              simp [fetchGitHubRepoInfo, hr, hm, hmo, hto, h404, httpOk_404]
  · intro h1 h2
    have hr : ¬ httpOk readme.status = true := by simp [h1]
    simp [fetchGitHubRepoInfo, hr, h2]
  · intro h404
    have hr : ¬ httpOk readme.status = true := by
      rw [h404, httpOk_404]; simp
    constructor
    · by_cases hm : repoInfo.status = 404 <;>
        by_cases hmo : httpOk repoInfo.status = true <;>
          by_cases hto : httpOk tree.status = true <;>
            simp [fetchGitHubRepoInfo, hr, h404, hm, hmo, hto, httpOk_404]
    · intro info hinfo
      by_cases hm : repoInfo.status = 404 <;>
        by_cases hmo : httpOk repoInfo.status = true <;>
          by_cases hto : httpOk tree.status = true <;>
            simp [fetchGitHubRepoInfo, hr, h404, hm, hmo, hto, httpOk_404] at hinfo <;>
              simp [← hinfo]
  · intro hok hm
    rcases hok with hr | h404
    · simp [fetchGitHubRepoInfo, hr, hm]
    · have hr : ¬ httpOk readme.status = true := by rw [h404, httpOk_404]; simp
      simp [fetchGitHubRepoInfo, hr, h404, hm, httpOk_404]
  · intro hok hm hmo
    rcases hok with hr | h404
    · simp [fetchGitHubRepoInfo, hr, hm, hmo]
    · have hr : ¬ httpOk readme.status = true := by rw [h404, httpOk_404]; simp
      simp [fetchGitHubRepoInfo, hr, h404, hm, hmo, httpOk_404]
  · intro hok hmo hto
    have hm : repoInfo.status ≠ 404 := fun hh => by
      rw [h404ne hh] at hmo; exact Bool.false_ne_true hmo
    rcases hok with hr | h404
    · simp [fetchGitHubRepoInfo, hr, hm, hmo, hto]
    · have hr : ¬ httpOk readme.status = true := by rw [h404, httpOk_404]; simp
      simp [fetchGitHubRepoInfo, hr, h404, hm, hmo, hto, httpOk_404]
  · intro hok hmo hto
    have hm : repoInfo.status ≠ 404 := fun hh => by
      rw [h404ne hh] at hmo; exact Bool.false_ne_true hmo
    rcases hok with hr | h404
    · simp [fetchGitHubRepoInfo, hr, hm, hmo, hto]
    · have hr : ¬ httpOk readme.status = true := by rw [h404, httpOk_404]; simp
      simp [fetchGitHubRepoInfo, hr, h404, hm, hmo, hto, httpOk_404]
  · intro url completionText
    cases hp : parseGitHubUrl url with
    | none => simp [analyzeGitHubUrl, hp]
    | some pr =>
      obtain ⟨o2, r2⟩ := pr
      have hflag1 := fetch_tree_flag o2 r2 readme repoInfo tree true
      have hflag2 := fetch_tree_flag o2 r2 readme repoInfo tree false
      cases hf : (fetchGitHubRepoInfo o2 r2 readme repoInfo tree).2 with
      | error e =>
        simp [analyzeGitHubUrl, hp, hflag1, hflag2, hf, Except.map]
      | ok info =>
        cases hs : githubSummaryCheck completionText with
        | error e => simp [analyzeGitHubUrl, hp, hflag1, hflag2, hf, hs, Except.map]
        | ok s => simp [analyzeGitHubUrl, hp, hflag1, hflag2, hf, hs, Except.map]
  · intro url completionText o2 r2 info hp hf htr
    rcases hFe : fetchGitHubRepoInfo o2 r2 readme repoInfo tree with ⟨calls, res⟩
    rw [hFe] at hf
    simp only at hf
    subst hf
    have hev : (analyzeGitHubUrl url readme repoInfo tree completionText).1
        = [⟨"Iniciando análise do repositório: " ++ (o2 ++ "/" ++ r2), .process⟩]
          ++ [⟨"A estrutura de arquivos é muito grande e foi truncada.", .info⟩] := by
      cases hs : githubSummaryCheck completionText with
      | error e => simp [analyzeGitHubUrl, hp, hFe, htr, hs]
      | ok s => simp [analyzeGitHubUrl, hp, hFe, htr, hs]
    rw [hev]
    simp

/-- Witness for `github_fetch_contract`: README 404 is tolerated — with
OK metadata and tree responses the fetch succeeds with empty README
content. -/
theorem github_fetch_contract_witness :
    (fetchGitHubRepoInfo "acme" "widget" ⟨404, "ignored"⟩ ⟨200, "main"⟩
        ⟨200, ["a.ts", "b.ts"], false⟩).2
      = .ok ⟨"", "a.ts\nb.ts", false⟩ := by
  have h := (github_fetch_contract "acme" "widget" ⟨404, "ignored"⟩ ⟨200, "main"⟩
    ⟨200, ["a.ts", "b.ts"], false⟩).2.2.2.2.2.2.1 (Or.inr rfl) (by decide) (by decide)
  rw [h]
  rfl

/-! ## The analysis pipeline (`AnalysisService.analyze` and its path
functions, analysis-service.ts lines 28-536)

External effects are parameters: the worker round-trip outcome, the single
summary-completion response text, and — for helpers living outside `src/`
(`isValidUrl`, `getYouTubeVideoId`, `getYouTubeVideoTitle` in
`youtube-utils.ts`, `scrapeUrl` in `firecrawl-utils.ts`, the Sheets-key
regex result) — their returned values.  Prompt strings fed to the
completion are not reconstructed; the completion response abstracts them. -/

/-- The two fields of a `File` the dispatch reads. -/
structure FileReq where
  name : String
  mime : String
deriving DecidableEq, Repr

/-- `scrapeUrl` result: `{success, data?: {markdown, metadata:{title}},
error?}` with absent/empty strings collapsed to `""`. -/
structure ScrapeResult where
  success : Bool
  hasData : Bool
  markdown : String
  title : String
  error : String
deriving DecidableEq, Repr

/-- `analyzeYouTubeUrl` (lines 241-275); `videoTitle` is the
`getYouTubeVideoTitle` result. -/
def analyzeYouTubeUrl (url videoTitle : String) (completionText : Option String) :
    Except String AnalysisResult :=
  match analyzeContentAndGenerateSummary completionText with
  | .error e => .error e
  | .ok s => .ok ⟨s, videoTitle, url, .assistant, .youtube⟩

/-- `analyzeGoogleSheetUrl` (lines 400-439); `sheetKeyFound` is whether the
`/spreadsheets\/d\/([a-zA-Z0-9-_]+)/` match succeeded, `csvOk` whether the
CSV-export fetch came back OK. -/
def analyzeGoogleSheetUrl (url : String) (sheetKeyFound : Bool)
    (scrape : ScrapeResult) (csvOk : Bool) (completionText : Option String) :
    Except String AnalysisResult :=
  if !sheetKeyFound then .error "URL do Google Sheets inválida."
  else if !csvOk then
    .error "Falha ao buscar dados da planilha. Verifique se ela é pública."
  else
    match analyzeContentAndGenerateSummary completionText with
    | .error e => .error e
    | .ok s =>
      .ok ⟨s,
        if scrape.hasData && !(scrape.title == "") then scrape.title
        else "Planilha do Google",
        url, .analyst, .spreadsheet⟩

/-- `analyzeGenericUrl` (lines 441-474). -/
def analyzeGenericUrl (url : String) (scrape : ScrapeResult)
    (completionText : Option String) : Except String AnalysisResult :=
  if !scrape.success || !scrape.hasData then
    .error (if scrape.error == "" then "Falha ao extrair conteúdo da URL." else scrape.error)
  else
    match analyzeContentAndGenerateSummary completionText with
    | .error e => .error e
    | .ok s =>
      .ok ⟨s, if scrape.title == "" then url else scrape.title, url, .assistant, .url⟩

/-- `performDeepSearch` (lines 476-520). -/
def performDeepSearch (topic : String) (completionText : Option String) :
    Except String AnalysisResult :=
  match deepSearchSummaryCheck completionText with
  | .error e => .error e
  | .ok s => .ok ⟨s, topic, "Pesquisa Aprofundada na Web", .assistant, .search⟩

/-- `analyzeFile` (lines 152-239): worker round-trip, then the
mime/parsed-type dispatch choosing persona and type, then the summary
check.  `workerOutcome` is the `processFileInWorker` promise outcome
(parse errors and the 30-second timeout both reject it). -/
def analyzeFile (file : FileReq) (workerOutcome : Except String String)
    (completionText : Option String) : Except String AnalysisResult :=
  match workerOutcome with
  | .error e => .error e
  | .ok _content =>
    let finish := fun (persona : Persona) (ty : AType) =>
      match analyzeContentAndGenerateSummary completionText with
      | .error e => (.error e : Except String AnalysisResult)
      | .ok s => .ok ⟨s, file.name, "Arquivo Local", persona, ty⟩
    if strStartsWith file.mime "image/" then finish .assistant .file
    else if strStartsWith file.mime "video/" then finish .assistant .video
    else if file.mime == "application/pdf" then finish .assistant .file
    else if (classifyFile file.name file.mime).1 = .csv then finish .analyst .spreadsheet
    else if (classifyFile file.name file.mime).1 = .text then finish .assistant .file
    else .error ("Tipo de arquivo não suportado: "
        ++ (if file.mime == "" then strToLower file.name else file.mime)
        ++ ". Por favor, use imagens, PDFs, planilhas ou documentos.")

/-- The external outcomes one `analyze` run can consult. -/
structure AnalyzeEnv where
  workerOutcome : Except String String
  completionText : Option String
  validUrl : Bool
  hasYouTubeId : Bool
  youtubeTitle : String
  scrape : ScrapeResult
  readme : ReadmeResp
  repoInfo : RepoInfoResp
  tree : TreeResp
  sheetKeyFound : Bool
  sheetCsvOk : Bool

/-- `AnalysisService.analyze` (lines 28-44) composed with `analyzeUrl`
(lines 522-535): file → worker path; URL → YouTube / GitHub / Sheets /
generic dispatch; non-URL text → deep search. -/
def analyze (urlOrTopic : String) (file : Option FileReq) (env : AnalyzeEnv) :
    Except String AnalysisResult :=
  match file with
  | some f => analyzeFile f env.workerOutcome env.completionText
  | none =>
    let input := strTrim urlOrTopic
    if env.validUrl then
      if env.hasYouTubeId then
        analyzeYouTubeUrl input env.youtubeTitle env.completionText
      else if strContains input "github.com/" then
        (analyzeGitHubUrl input env.readme env.repoInfo env.tree env.completionText).2
      else if strContains input "docs.google.com/spreadsheets/" then
        analyzeGoogleSheetUrl input env.sheetKeyFound env.scrape env.sheetCsvOk
          env.completionText
      else analyzeGenericUrl input env.scrape env.completionText
    else performDeepSearch input env.completionText

/-- `ContentAnalysisManager.handleAnalysisRequest`
(content-analysis-manager.ts lines 31-67): run the analysis, build the
`Analysis` record (`newId` stands for `Date.now().toString()`), append it,
recompile the instruction. -/
def handleAnalysisRequest (urlOrTopic : String) (file : Option FileReq)
    (env : AnalyzeEnv) (currentAnalyses : List Analysis) (newId : String) :
    Except String (List Analysis × String × Analysis) :=
  match analyze urlOrTopic file env with
  | .error e => .error e
  | .ok result =>
    let newAnalysis : Analysis :=
      ⟨newId, result.title, result.source, result.summary, result.type, result.persona⟩
    let newAnalyses := currentAnalyses ++ [newAnalysis]
    .ok (newAnalyses, generateCompositeSystemInstruction newAnalyses, newAnalysis)

theorem analyzeYouTubeUrl_ok (url t : String) (ct : Option String)
    (r : AnalysisResult) (h : analyzeYouTubeUrl url t ct = .ok r) :
    strTrim r.summary ≠ "" := by
  cases hc : analyzeContentAndGenerateSummary ct with
  | error e => simp [analyzeYouTubeUrl, hc] at h
  | ok s =>
    simp only [analyzeYouTubeUrl, hc, Except.ok.injEq] at h
    rw [← h]
    exact requireNonEmpty_ok _ _ _ hc

theorem analyzeGoogleSheetUrl_ok (url : String) (k : Bool) (sc : ScrapeResult)
    (csvOk : Bool) (ct : Option String) (r : AnalysisResult)
    (h : analyzeGoogleSheetUrl url k sc csvOk ct = .ok r) :
    strTrim r.summary ≠ "" := by
  by_cases hk : k = true
  · by_cases hcsv : csvOk = true
    · cases hc : analyzeContentAndGenerateSummary ct with
      | error e => simp [analyzeGoogleSheetUrl, hk, hcsv, hc] at h
      | ok s =>
        simp only [analyzeGoogleSheetUrl, hk, hcsv, hc, Bool.not_true,
          Bool.false_eq_true, if_false, Except.ok.injEq] at h
        rw [← h]
        exact requireNonEmpty_ok _ _ _ hc
    · simp [analyzeGoogleSheetUrl, hk, hcsv] at h
  · simp [analyzeGoogleSheetUrl, hk] at h

theorem analyzeGenericUrl_ok (url : String) (sc : ScrapeResult)
    (ct : Option String) (r : AnalysisResult)
    (h : analyzeGenericUrl url sc ct = .ok r) :
    strTrim r.summary ≠ "" := by
  by_cases hs : (!sc.success || !sc.hasData) = true
  · simp only [analyzeGenericUrl, hs, if_true] at h
    exact absurd h (by simp)
  · cases hc : analyzeContentAndGenerateSummary ct with
    | error e => simp [analyzeGenericUrl, hs, hc] at h
    | ok s =>
      simp only [analyzeGenericUrl, hs, if_false, Bool.false_eq_true, hc,
        Except.ok.injEq] at h
      rw [← h]
      exact requireNonEmpty_ok _ _ _ hc

theorem performDeepSearch_ok (t : String) (ct : Option String)
    (r : AnalysisResult) (h : performDeepSearch t ct = .ok r) :
    strTrim r.summary ≠ "" := by
  cases hc : deepSearchSummaryCheck ct with
  | error e => simp [performDeepSearch, hc] at h
  | ok s =>
    simp only [performDeepSearch, hc, Except.ok.injEq] at h
    rw [← h]
    exact requireNonEmpty_ok _ _ _ hc

theorem analyzeGitHubUrl_ok (url : String) (rd : ReadmeResp) (ri : RepoInfoResp)
    (tr : TreeResp) (ct : Option String) (r : AnalysisResult)
    (h : (analyzeGitHubUrl url rd ri tr ct).2 = .ok r) :
    strTrim r.summary ≠ "" := by
  cases hp : parseGitHubUrl url with
  | none => simp [analyzeGitHubUrl, hp] at h
  | some pr =>
    obtain ⟨o, rp⟩ := pr
    rcases hF : fetchGitHubRepoInfo o rp rd ri tr with ⟨calls, res⟩
    cases res with
    | error e => simp [analyzeGitHubUrl, hp, hF] at h
    | ok info =>
      cases hc : githubSummaryCheck ct with
      | error e => simp [analyzeGitHubUrl, hp, hF, hc] at h
      | ok s =>
        simp only [analyzeGitHubUrl, hp, hF, hc, Except.ok.injEq] at h
        rw [← h]
        exact requireNonEmpty_ok _ _ _ hc

theorem analyzeFile_ok (f : FileReq) (w : Except String String)
    (ct : Option String) (r : AnalysisResult)
    (h : analyzeFile f w ct = .ok r) : strTrim r.summary ≠ "" := by
  cases w with
  | error e => simp [analyzeFile] at h
  | ok content =>
    cases hc : analyzeContentAndGenerateSummary ct with
    | error e =>
      simp only [analyzeFile, hc] at h
      repeat' split at h
      all_goals simp at h
    | ok s =>
      simp only [analyzeFile, hc] at h
      have hsum : r.summary = s := by
        repeat' split at h
        all_goals first
          | (injection h with h2; rw [← h2])
          | simp at h
      rw [hsum]
      exact requireNonEmpty_ok _ _ _ hc

/-- C3: every `Analysis` appended to the accumulator has a summary that is
non-empty after trimming — each summary-generation path checks the
completion result and fails when it is empty or whitespace-only, so no
`AnalyzeEnv` can produce an `ok` result with a blank summary, and the
manager appends exactly that checked result. -/
theorem analyze_summary_nonempty :
    (∀ (urlOrTopic : String) (file : Option FileReq) (env : AnalyzeEnv)
        (r : AnalysisResult),
      analyze urlOrTopic file env = .ok r → strTrim r.summary ≠ "")
    ∧ (∀ (urlOrTopic : String) (file : Option FileReq) (env : AnalyzeEnv)
        (cur : List Analysis) (newId : String) (l : List Analysis)
        (instr : String) (a : Analysis),
        handleAnalysisRequest urlOrTopic file env cur newId = .ok (l, instr, a) →
        strTrim a.summary ≠ "" ∧ l = cur ++ [a]) := by
  have main : ∀ (urlOrTopic : String) (file : Option FileReq) (env : AnalyzeEnv)
      (r : AnalysisResult),
      analyze urlOrTopic file env = .ok r → strTrim r.summary ≠ "" := by
    intro urlOrTopic file env r h
    cases file with
    | some f => exact analyzeFile_ok f env.workerOutcome env.completionText r h
    | none =>
      simp only [analyze] at h
      by_cases hv : env.validUrl = true
      · rw [if_pos hv] at h
        by_cases hy : env.hasYouTubeId = true
        · rw [if_pos hy] at h
          exact analyzeYouTubeUrl_ok _ _ _ r h
        · rw [if_neg hy] at h
          by_cases hg : strContains (strTrim urlOrTopic) "github.com/" = true
          · rw [if_pos hg] at h
            exact analyzeGitHubUrl_ok _ _ _ _ _ r h
          · rw [if_neg hg] at h
            by_cases hsheet :
                strContains (strTrim urlOrTopic) "docs.google.com/spreadsheets/" = true
            · rw [if_pos hsheet] at h
              exact analyzeGoogleSheetUrl_ok _ _ _ _ _ r h
            · rw [if_neg hsheet] at h
              exact analyzeGenericUrl_ok _ _ _ r h
      · rw [if_neg hv] at h
        exact performDeepSearch_ok _ _ r h
  refine ⟨main, ?_⟩
  intro urlOrTopic file env cur newId l instr a h
  cases hm : analyze urlOrTopic file env with
  | error e => simp [handleAnalysisRequest, hm] at h
  | ok result =>
    simp only [handleAnalysisRequest, hm, Except.ok.injEq, Prod.mk.injEq] at h
    obtain ⟨hl, _, ha⟩ := h
    constructor
    · rw [← ha]
      exact main urlOrTopic file env result hm
    · rw [← hl, ← ha]

/-- Witness for `analyze_summary_nonempty`: a concrete deep-search run whose
appended analysis has a non-blank summary. -/
theorem analyze_summary_nonempty_witness :
    strTrim (Analysis.mk "1" "topico" "Pesquisa Aprofundada na Web" "resumo"
        .search .assistant).summary ≠ ""
    ∧ [Analysis.mk "1" "topico" "Pesquisa Aprofundada na Web" "resumo"
        .search .assistant]
      = [] ++ [Analysis.mk "1" "topico" "Pesquisa Aprofundada na Web" "resumo"
          .search .assistant] :=
  analyze_summary_nonempty.2 "topico" none
    ⟨.ok "conteudo", some "resumo", false, false, "", ⟨true, true, "", "", ""⟩,
      ⟨200, ""⟩, ⟨200, "main"⟩, ⟨200, [], false⟩, true, true⟩
    [] "1"
    [Analysis.mk "1" "topico" "Pesquisa Aprofundada na Web" "resumo" .search .assistant]
    (generateCompositeSystemInstruction
      [Analysis.mk "1" "topico" "Pesquisa Aprofundada na Web" "resumo" .search .assistant])
    (Analysis.mk "1" "topico" "Pesquisa Aprofundada na Web" "resumo" .search .assistant)
    (by rfl)

/-! ## The UI component state machine (`src/gdm-live-audio.ts`)

The component's reactive fields are a record; each handler is a state
transition.  Asynchronous external outcomes are parameters: the analysis
promise outcome for `handleAnalysisSubmit`, and the `live.connect` outcome
(keyed by the model string it is called with) for `initSession` — whose
`onopen` side effects are applied synchronously on success.  The
microphone `MediaStream` is tracked as a presence flag. -/

/-- `ProcessingState` (gdm-live-audio.ts lines 38-42). -/
structure ProcessingState where
  active : Bool
  step : String
  progress : Nat
deriving DecidableEq, Repr

/-- A grounding-search result entry. -/
structure SearchResult where
  uri : String
  title : String
deriving DecidableEq, Repr

/-- The component state (the `@state()` fields the embedded handlers touch,
plus session bookkeeping). -/
structure UIState where
  isRecording : Bool
  status : String
  error : String
  urlInput : String
  selectedFile : Option FileReq
  processingState : ProcessingState
  searchResults : List SearchResult
  timelineEvents : List Event
  analyses : List Analysis
  sessionInstruction : String
  hasSession : Bool
  mediaStreamActive : Bool
deriving Repr

/-- `logEvent` (lines 88-96): prepends the event (timestamp omitted). -/
def uiLogEvent (st : UIState) (message : String) (t : EType) : UIState :=
  {st with timelineEvents := ⟨message, t⟩ :: st.timelineEvents}

/-- `updateStatus` (lines 207-210). -/
def uiUpdateStatus (st : UIState) (msg : String) : UIState :=
  {st with status := msg, error := ""}

/-- `updateError` (lines 212-219); the delayed 5-second clearing timer is
not modelled. -/
def uiUpdateError (st : UIState) (msg : String) : UIState :=
  uiLogEvent {st with error := msg, status := ""} msg .error

/-- `setProcessingState` (lines 278-292). -/
def uiSetProcessingState (st : UIState) (active : Bool) (step : String)
    (progress : Nat) (isError : Bool) : UIState :=
  let st1 := {st with processingState := ⟨active, step, progress⟩}
  let st2 := if active then {st1 with status := "", error := ""} else st1
  if !active && !isError then uiUpdateStatus st2 "Pronto para conversar." else st2

/-- The single model `initSession` connects with (line 125). -/
def connectModel : String := "gemini-2.5-flash-native-audio-dialog"

/-- `getSingleSystemInstruction` of the `AnalysisService` variant in
`src/components/timeline-modal.ts` (third concatenated document, the
variant whose `analyze(File | string, ProgressCallback)` signature and
`Analysis` export `gdm-live-audio.ts` typechecks against): persona-only
dispatch, embedding title, source and summary between the
`--- INÍCIO/FIM DO RESUMO ---` delimiters. -/
def serviceSingleInstruction (a : Analysis) : String :=
  (if a.persona = .analyst then
    "Você é um analista de dados especialista que fala português do Brasil."
  else
    "Você é um assistente de voz prestativo que fala português do Brasil.")
    ++ " Sua expertise é baseada no seguinte documento:\n- **Título:** "
    ++ a.title
    ++ "\n- **Fonte:** "
    ++ a.source
    ++ "\n\nAbaixo está um resumo detalhado do conteúdo. Responda às perguntas com base estritamente nessas informações.\n\n--- INÍCIO DO RESUMO ---\n"
    ++ a.summary
    ++ "\n--- FIM DO RESUMO ---\n\nSe a pergunta for sobre algo não contido na fonte, indique que a informação não está disponível. Você não pode pesquisar informações externas."

/-- `AnalysisService.generateSystemInstruction` from the same
`timeline-modal.ts` service variant (its line 442) — the method
`gdm-live-audio.ts` calls: an empty list yields the same fixed default
string as the builder's empty case (byte-identical literals, so the shared
definition is reused), a singleton yields the service's own single-source
template, and two or more analyses yield a composite whose header, numbered
`FONTE` blocks and footer are byte-identical to the builder's (the shared
definitions are reused; the two sources differ only in expression
indentation inside `${...}`). -/
def generateSystemInstruction : List Analysis → String
  | [] => defaultInstruction
  | [a] => serviceSingleInstruction a
  | analyses => multiHeader ++ sourceBlocks 1 analyses ++ multiFooter

/-- `initSession` (lines 112-205): close any prior session, fall back to the
default instruction when none (or an empty string) is passed, log the
general-mode reset in that case, set the connecting status, and attempt
exactly one `live.connect` with the fixed model — on success apply the
`onopen` effects and record the configured instruction; on failure surface
the error via `updateError`.  The second component lists the models
attempted. -/
def initSession (st : UIState) (systemInstruction : Option String)
    (connect : String → Except String Unit) : UIState × List String :=
  let instruction :=
    match systemInstruction with
    | some s => if s == "" then defaultInstruction else s
    | none => defaultInstruction
  let falsy : Bool :=
    match systemInstruction with
    | some s => s == ""
    | none => true
  let st1 := if falsy then uiLogEvent st "Sessão reiniciada para o modo geral." .info else st
  let st2 := uiUpdateStatus st1 "Conectando ao assistente..."
  match connect connectModel with
  | .ok _ =>
    let st3 := uiLogEvent st2 "Conexão com o assistente estabelecida." .connect
    let st4 := if st3.analyses.length = 0 then uiUpdateStatus st3 "Conectado" else st3
    ({st4 with hasSession := true, sessionInstruction := instruction}, [connectModel])
  | .error e => (uiUpdateError st2 e, [connectModel])

/-- `handleAnalysisSubmit` (lines 294-335): reject re-entry while
processing, require some input, then run the analysis; on failure surface
the error and leave the accumulator untouched; on success append the new
`Analysis`, rebuild the session, and update the status — with the
processing flag cleared in the `finally` path either way. -/
def handleAnalysisSubmit (st : UIState) (outcome : Except String AnalysisResult)
    (newId : String) (connect : String → Except String Unit) : UIState :=
  if st.processingState.active then st
  else if strTrim st.urlInput == "" && st.selectedFile.isNone then
    uiUpdateError st "Forneça uma URL, um tópico ou carregue um arquivo."
  else
    let st1 := uiSetProcessingState st true "Iniciando análise..." 5 false
    let st2 := uiLogEvent st1 "Análise de conteúdo iniciada." .process
    let st3 := {st2 with searchResults := []}
    match outcome with
    | .error e =>
      let st4 := uiUpdateError st3 ("Erro na análise: " ++ e)
      let st5 := uiSetProcessingState st4 false "Falha na análise" 0 true
      uiSetProcessingState st5 false "" 0 false
    | .ok result =>
      let st4 := uiLogEvent st3 "Análise concluída com sucesso." .success
      let st5 := uiSetProcessingState st4 true "Configurando assistente..." 95 false
      let newAnalysis : Analysis :=
        ⟨newId, result.title, result.source, result.summary, result.type, result.persona⟩
      let st6 := {st5 with
        analyses := st5.analyses ++ [newAnalysis]
        selectedFile := none
        urlInput := ""}
      let st7 := uiLogEvent st6 ("Contexto adicionado: \"" ++ newAnalysis.title ++ "\"")
        .success
      let st8 := (initSession st7 (some (generateSystemInstruction st7.analyses)) connect).1
      let titleToShow := if st8.analyses.length > 1 then "Múltiplos contextos"
        else (st8.analyses.headD ⟨"", "", "", "", .file, .assistant⟩).title
      let st9 := uiUpdateStatus st8 ("Pronto! Pergunte sobre \"" ++ titleToShow ++ "\"")
      uiSetProcessingState st9 false "" 0 false

/-- `reset` (lines 363-372): clear analyses, inputs and search results,
reopen the session with no instruction override. -/
def uiReset (st : UIState) (connect : String → Except String Unit) : UIState :=
  let st1 := {st with
    analyses := []
    urlInput := ""
    selectedFile := none
    searchResults := []}
  let st2 := (initSession st1 none connect).1
  uiUpdateStatus st2 "Sessão reiniciada."

/-- `removeAnalysis` (lines 351-361): filter out the id; an empty remainder
triggers a full `reset`, otherwise the session is reopened over the
remaining analyses. -/
def removeAnalysis (st : UIState) (idToRemove : String)
    (connect : String → Except String Unit) : UIState :=
  let st1 := {st with analyses := st.analyses.filter (fun a => a.id != idToRemove)}
  let st2 := uiLogEvent st1 "Contexto removido." .info
  if st2.analyses.length = 0 then uiReset st2 connect
  else
    let st3 := (initSession st2 (some (generateSystemInstruction st2.analyses)) connect).1
    uiUpdateStatus st3 "Contexto removido. Sessão atualizada."

/-- The `onclose` live-session callback (lines 187-190): status message and
a disconnect timeline event, nothing else. -/
def oncloseHandler (st : UIState) (reason : String) : UIState :=
  uiLogEvent (uiUpdateStatus st ("Conexão fechada: " ++ reason))
    ("Conexão fechada: " ++ reason) .disconnect

/-- The `onaudioprocess` guard (lines 242-246): a chunk is sent to the
session iff `isRecording` is still set. -/
def onAudioProcessSends (st : UIState) : Bool := st.isRecording

/-- `stopRecording` (lines 259-276); its early-return guard also requires
the always-present input audio context to be absent, so it never fires and
is omitted. -/
def stopRecording (st : UIState) : UIState :=
  let st1 := uiUpdateStatus st "Parando gravação..."
  let st2 := {st1 with isRecording := false, mediaStreamActive := false}
  let st3 := uiLogEvent st2 "Gravação parada." .record
  uiUpdateStatus st3 "Gravação parada. Clique para começar de novo."

theorem uiSetProcessingState_processing (st : UIState) (a : Bool) (s : String)
    (p : Nat) (e : Bool) :
    (uiSetProcessingState st a s p e).processingState = ⟨a, s, p⟩ := by
  by_cases ha : a = true <;> by_cases he : e = true <;>
    simp [uiSetProcessingState, uiUpdateStatus, ha, he]

theorem uiSetProcessingState_analyses (st : UIState) (a : Bool) (s : String)
    (p : Nat) (e : Bool) :
    (uiSetProcessingState st a s p e).analyses = st.analyses := by
  by_cases ha : a = true <;> by_cases he : e = true <;>
    simp [uiSetProcessingState, uiUpdateStatus, ha, he]

theorem initSession_analyses (st : UIState) (inst : Option String)
    (connect : String → Except String Unit) :
    ((initSession st inst connect).1).analyses = st.analyses := by
  cases hc : connect connectModel <;>
    cases inst <;>
      simp only [initSession, hc] <;>
        split <;>
          simp [uiLogEvent, uiUpdateStatus, uiUpdateError] <;>
            split <;> simp

theorem initSession_processing (st : UIState) (inst : Option String)
    (connect : String → Except String Unit) :
    ((initSession st inst connect).1).processingState = st.processingState := by
  cases hc : connect connectModel <;>
    cases inst <;>
      simp only [initSession, hc] <;>
        split <;>
          simp [uiLogEvent, uiUpdateStatus, uiUpdateError] <;>
            split <;> simp

@[simp] theorem uiLogEvent_analyses (st : UIState) (m : String) (t : EType) :
    (uiLogEvent st m t).analyses = st.analyses := rfl

@[simp] theorem uiLogEvent_processing (st : UIState) (m : String) (t : EType) :
    (uiLogEvent st m t).processingState = st.processingState := rfl

@[simp] theorem uiUpdateStatus_analyses (st : UIState) (m : String) :
    (uiUpdateStatus st m).analyses = st.analyses := rfl

@[simp] theorem uiUpdateStatus_processing (st : UIState) (m : String) :
    (uiUpdateStatus st m).processingState = st.processingState := rfl

@[simp] theorem uiUpdateError_analyses (st : UIState) (m : String) :
    (uiUpdateError st m).analyses = st.analyses := rfl

@[simp] theorem uiUpdateError_processing (st : UIState) (m : String) :
    (uiUpdateError st m).processingState = st.processingState := rfl

@[simp] theorem uiUpdateStatus_sessionInstruction (st : UIState) (m : String) :
    (uiUpdateStatus st m).sessionInstruction = st.sessionInstruction := rfl

@[simp] theorem uiLogEvent_sessionInstruction (st : UIState) (m : String) (t : EType) :
    (uiLogEvent st m t).sessionInstruction = st.sessionInstruction := rfl

theorem strAppend_ne_empty_right (a b : String) (hb : b ≠ "") : a ++ b ≠ "" := by
  intro h
  apply hb
  have hd := congrArg String.data h
  rw [String.data_append] at hd
  have hnil : ("" : String).data = [] := rfl
  rw [hnil] at hd
  have hb2 : b.data = [] := (List.append_eq_nil.mp hd).2
  obtain ⟨l⟩ := b
  have hl : l = [] := hb2
  rw [hl]

theorem generateSystemInstruction_ne_empty (as : List Analysis) (h : as ≠ []) :
    (generateSystemInstruction as == "") = false := by
  rw [beq_eq_false_iff_ne]
  match as, h with
  | [a], _ =>
    show serviceSingleInstruction a ≠ ""
    unfold serviceSingleInstruction
    exact strAppend_ne_empty_right _ _ (by decide)
  | a :: b :: t, _ =>
    show multiHeader ++ sourceBlocks 1 (a :: b :: t) ++ multiFooter ≠ ""
    exact strAppend_ne_empty_right _ _ (by decide)

theorem initSession_instruction_some (st : UIState) (s : String)
    (connect : String → Except String Unit) (hconn : connect connectModel = .ok ())
    (hs : (s == "") = false) :
    ((initSession st (some s) connect).1).sessionInstruction = s := by
  simp [initSession, hconn, hs]

theorem initSession_instruction_none (st : UIState)
    (connect : String → Except String Unit) (hconn : connect connectModel = .ok ()) :
    ((initSession st none connect).1).sessionInstruction = defaultInstruction := by
  simp [initSession, hconn]

/-- C4: analysis append is all-or-nothing — starting from an idle
processing state, a failed request leaves the analyses list exactly as it
was, a successful request appends exactly the one new `Analysis`, and in
either case (including the missing-input rejection) the processing flag
ends inactive via the `finally` path. -/
theorem submit_all_or_nothing (st : UIState) (outcome : Except String AnalysisResult)
    (newId : String) (connect : String → Except String Unit)
    (hidle : st.processingState.active = false) :
    (handleAnalysisSubmit st outcome newId connect).processingState.active = false
    ∧ (∀ e, outcome = .error e →
        (handleAnalysisSubmit st outcome newId connect).analyses = st.analyses)
    ∧ (∀ r, outcome = .ok r →
        (strTrim st.urlInput == "" && st.selectedFile.isNone) = false →
        (handleAnalysisSubmit st outcome newId connect).analyses
          = st.analyses ++ [⟨newId, r.title, r.source, r.summary, r.type, r.persona⟩]) := by
  by_cases hin : (strTrim st.urlInput == "" && st.selectedFile.isNone) = true
  · have hH : handleAnalysisSubmit st outcome newId connect
        = uiUpdateError st "Forneça uma URL, um tópico ou carregue um arquivo." := by
      simp [handleAnalysisSubmit, hidle, hin]
    refine ⟨?_, ?_, ?_⟩
    · rw [hH]; simp [hidle]
    · intro e _; rw [hH]; simp
    · intro r _ hcontra; rw [hin] at hcontra; exact absurd hcontra (by simp)
  · have hin2 : (strTrim st.urlInput == "" && st.selectedFile.isNone) = false := by
      cases hcc : (strTrim st.urlInput == "" && st.selectedFile.isNone) with
      | false => rfl
      | true => exact absurd hcc hin
    cases outcome with
    | error e =>
      refine ⟨?_, ?_, ?_⟩
      · simp [handleAnalysisSubmit, hidle, hin2, uiSetProcessingState_processing]
      · intro e2 _
        simp [handleAnalysisSubmit, hidle, hin2, uiSetProcessingState_analyses]
      · intro r hr; exact absurd hr (by simp)
    | ok result =>
      refine ⟨?_, ?_, ?_⟩
      · simp [handleAnalysisSubmit, hidle, hin2, uiSetProcessingState_processing]
      · intro e2 he; exact absurd he (by simp)
      · intro r hr _
        injection hr with hr2
        subst hr2
        simp [handleAnalysisSubmit, hidle, hin2, uiSetProcessingState_analyses,
          initSession_analyses]

/-- Witness for `submit_all_or_nothing`: a concrete successful submission
appends exactly the one analysis. -/
theorem submit_all_or_nothing_witness :
    (handleAnalysisSubmit
        ⟨false, "", "", "tema", none, ⟨false, "", 0⟩, [], [], [],
          "Você é um assistente de voz prestativo que fala português do Brasil. Você não tem a capacidade de pesquisar na internet.",
          false, false⟩
        (.ok ⟨"resumo", "tema", "Pesquisa Aprofundada na Web", .assistant, .search⟩)
        "7" (fun _ => .ok ())).analyses
      = [] ++ [⟨"7", "tema", "Pesquisa Aprofundada na Web", "resumo", .search, .assistant⟩] :=
  (submit_all_or_nothing
      ⟨false, "", "", "tema", none, ⟨false, "", 0⟩, [], [], [],
        "Você é um assistente de voz prestativo que fala português do Brasil. Você não tem a capacidade de pesquisar na internet.",
        false, false⟩
      (.ok ⟨"resumo", "tema", "Pesquisa Aprofundada na Web", .assistant, .search⟩)
      "7" (fun _ => .ok ()) rfl).2.2
    ⟨"resumo", "tema", "Pesquisa Aprofundada na Web", .assistant, .search⟩ rfl (by decide)

/-- C5: removing the last remaining analysis triggers the full reset — the
analyses are cleared and the session is configured with exactly
`compile([])`, which is byte-identical to the fixed default instruction —
while removing an id that leaves a non-empty list instead recompiles (via
the service's `generateSystemInstruction`) over the remaining analyses
without clearing them.  (`connect` succeeding makes the reopened session's
configured instruction observable.) -/
theorem remove_last_equals_reset (st : UIState) (idToRemove : String)
    (connect : String → Except String Unit)
    (hconn : connect connectModel = .ok ()) :
    ((st.analyses.filter (fun a => a.id != idToRemove)) = [] →
      (removeAnalysis st idToRemove connect).analyses = []
      ∧ (removeAnalysis st idToRemove connect).sessionInstruction
          = generateCompositeSystemInstruction []
      ∧ generateCompositeSystemInstruction [] = defaultInstruction)
    ∧ ((st.analyses.filter (fun a => a.id != idToRemove)) ≠ [] →
      (removeAnalysis st idToRemove connect).analyses
        = st.analyses.filter (fun a => a.id != idToRemove)
      ∧ (removeAnalysis st idToRemove connect).sessionInstruction
          = generateSystemInstruction
              (st.analyses.filter (fun a => a.id != idToRemove))) := by
  constructor
  · intro hrem
    refine ⟨?_, ?_, rfl⟩
    · simp [removeAnalysis, hrem, uiReset, initSession_analyses]
    · show (removeAnalysis st idToRemove connect).sessionInstruction = defaultInstruction
      simp [removeAnalysis, hrem, uiReset, initSession_instruction_none, hconn]
  · intro hrem
    have hlen : ¬ ((st.analyses.filter (fun a => a.id != idToRemove)).length = 0) := by
      simp [List.length_eq_zero, hrem]
    have hs := generateSystemInstruction_ne_empty
      (st.analyses.filter (fun a => a.id != idToRemove)) hrem
    constructor
    · simp [removeAnalysis, hlen, initSession_analyses]
    · simp [removeAnalysis, hlen, initSession_instruction_some, hconn, hs]

/-- Witness for `remove_last_equals_reset`: removing the only analysis of a
concrete state clears the list and configures the session with
`compile([])` = the default instruction. -/
theorem remove_last_equals_reset_witness :
    (removeAnalysis
        ⟨false, "", "", "", none, ⟨false, "", 0⟩, [], [],
          [⟨"1", "T", "S", "resumo", .url, .assistant⟩], "", false, false⟩
        "1" (fun _ => .ok ())).analyses = []
    ∧ (removeAnalysis
        ⟨false, "", "", "", none, ⟨false, "", 0⟩, [], [],
          [⟨"1", "T", "S", "resumo", .url, .assistant⟩], "", false, false⟩
        "1" (fun _ => .ok ())).sessionInstruction
        = generateCompositeSystemInstruction []
    ∧ generateCompositeSystemInstruction [] = defaultInstruction :=
  (remove_last_equals_reset
      ⟨false, "", "", "", none, ⟨false, "", 0⟩, [], [],
        [⟨"1", "T", "S", "resumo", .url, .assistant⟩], "", false, false⟩
      "1" (fun _ => .ok ()) rfl).1 (by decide)

/-- C7 (amended): `initSession` attempts exactly one fixed model —
`gemini-2.5-flash-native-audio-dialog` — and a failed connection attempt
surfaces its error immediately; there is no second/alternate endpoint at
this layer. -/
theorem initSession_single_attempt (st : UIState) (inst : Option String)
    (connect : String → Except String Unit) :
    (initSession st inst connect).2 = [connectModel]
    ∧ (∀ e, connect connectModel = .error e →
        ((initSession st inst connect).1).error = e) := by
  constructor
  · cases hc : connect connectModel <;> cases inst <;> simp [initSession, hc]
  · intro e he
    cases inst <;> simp [initSession, he, uiUpdateError, uiLogEvent, uiUpdateStatus]

/-- Witness for `initSession_single_attempt` at a concrete failing
connection. -/
theorem initSession_single_attempt_witness :
    (initSession ⟨false, "", "", "", none, ⟨false, "", 0⟩, [], [], [], "", false, false⟩
        none (fun _ => .error "sem rede")).2 = [connectModel]
    ∧ ((initSession ⟨false, "", "", "", none, ⟨false, "", 0⟩, [], [], [], "", false, false⟩
        none (fun _ => .error "sem rede")).1).error = "sem rede" :=
  ⟨(initSession_single_attempt
      ⟨false, "", "", "", none, ⟨false, "", 0⟩, [], [], [], "", false, false⟩
      none (fun _ => .error "sem rede")).1,
    (initSession_single_attempt
      ⟨false, "", "", "", none, ⟨false, "", 0⟩, [], [], [], "", false, false⟩
      none (fun _ => .error "sem rede")).2 "sem rede" rfl⟩

/-- C7 counterexample: with a first (and only) connection attempt failing,
the error is surfaced after exactly one attempted model — no second
alternate endpoint/model is ever attempted, contradicting the claimed
multi-endpoint fallback. -/
theorem initSession_no_fallback_counterexample :
    ((initSession ⟨false, "", "", "", none, ⟨false, "", 0⟩, [], [], [], "", false, false⟩
        none (fun _ => .error "falha na conexão")).2).length = 1
    ∧ ((initSession ⟨false, "", "", "", none, ⟨false, "", 0⟩, [], [], [], "", false, false⟩
        none (fun _ => .error "falha na conexão")).1).error = "falha na conexão" :=
  ⟨rfl, rfl⟩

/-- C8 (amended): the `onclose` handler only sets the status message and
prepends a disconnect timeline event; it leaves `isRecording` and the
microphone stream untouched, so audio chunks keep being sent exactly when
they were being sent before. -/
theorem onclose_behavior (st : UIState) (reason : String) :
    (oncloseHandler st reason).isRecording = st.isRecording
    ∧ (oncloseHandler st reason).mediaStreamActive = st.mediaStreamActive
    ∧ (oncloseHandler st reason).status = "Conexão fechada: " ++ reason
    ∧ (oncloseHandler st reason).timelineEvents
        = ⟨"Conexão fechada: " ++ reason, .disconnect⟩ :: st.timelineEvents
    ∧ onAudioProcessSends (oncloseHandler st reason) = st.isRecording :=
  ⟨rfl, rfl, rfl, rfl, rfl⟩

/-- C8 counterexample: the `onclose` handler runs in a state that is
actively recording, and afterwards recording is still active, the
microphone stream is still live, and `onaudioprocess` still sends chunks —
contradicting the claimed force-stop of local audio capture. -/
theorem onclose_counterexample :
    (oncloseHandler
        ⟨true, "Gravando... Fale agora.", "", "", none, ⟨false, "", 0⟩, [], [], [],
          "", true, true⟩ "erro de transporte").isRecording = true
    ∧ onAudioProcessSends (oncloseHandler
        ⟨true, "Gravando... Fale agora.", "", "", none, ⟨false, "", 0⟩, [], [], [],
          "", true, true⟩ "erro de transporte") = true
    ∧ (oncloseHandler
        ⟨true, "Gravando... Fale agora.", "", "", none, ⟨false, "", 0⟩, [], [], [],
          "", true, true⟩ "erro de transporte").mediaStreamActive = true :=
  ⟨rfl, rfl, rfl⟩

end GeminiAssistent
